import Mathlib

/-!
Shallow embedding of `pkg/clusterd/inventory/node.go` (package `inventory`)
from the rook/castle repository: the node hardware-inventory tree decoder,
category parsers, IP address accessor, bulk loader and the key-value-pair
string parser.

Modelling conventions:
* The etcd store is modelled by an explicit client record of pure functions
  (directory listing, recursive get, plain get); Go errors are `Except String`.
* Go's `uint`/`uint64` parsing (`strconv.ParseUint`, base 10) is modelled by
  `goParseUint` over `Nat` with an explicit bound `2 ^ bitSize`.
* `float64` values (`strconv.ParseFloat`) are abstracted by their accepted
  source literal: `goParseFloat` validates the Go decimal/inf/nan syntax and
  returns the literal itself.  All claims about processor `Speed` concern
  only parse success/failure and value propagation, for which this
  abstraction is exact.
* Helpers of the repository that live outside this source file
  (`util.GetLeafKeyPath`, `util.GetDirChildKeys`, `util.IsEtcdKeyNotFound`,
  `GetDiskInfo`, the property-name constants and `DiscoveredNodesKey`) are
  modelled from the spec, each marked in its doc comment.
-/

set_option autoImplicit false

namespace Inventory

/-- Category-name constants from `node.go` (lines 19-25). -/
def IpAddressKey : String := "ipaddress"

/-- Category-name constant `disks` from `node.go`. -/
def DisksKey : String := "disks"

/-- Category-name constant `cpu` from `node.go`. -/
def ProcessorsKey : String := "cpu"

/-- Category-name constant `net` from `node.go`. -/
def NetworkKey : String := "net"

/-- Category-name constant `mem` from `node.go`. -/
def MemoryKey : String := "mem"

/-- Modelled from the spec: processor property key `physicalid`
(constant `ProcPhysicalIDKey`, defined outside src/). -/
def ProcPhysicalIDKey : String := "physicalid"

/-- Modelled from the spec: processor property key `siblings`. -/
def ProcSiblingsKey : String := "siblings"

/-- Modelled from the spec: processor property key `coreid`. -/
def ProcCoreIDKey : String := "coreid"

/-- Modelled from the spec: processor property key `numcores`. -/
def ProcNumCoresKey : String := "numcores"

/-- Modelled from the spec: processor property key `speed`. -/
def ProcSpeedKey : String := "speed"

/-- Modelled from the spec: processor property key `bits`. -/
def ProcBitsKey : String := "bits"

/-- Modelled from the spec: memory property key `totalsize`. -/
def MemoryTotalSizeKey : String := "totalsize"

/-- Modelled from the spec: network property key `ipv4address`. -/
def NetworkIPv4AddressKey : String := "ipv4address"

/-- Modelled from the spec: network property key `ipv6address`. -/
def NetworkIPv6AddressKey : String := "ipv6address"

/-- Modelled from the spec: network property key `speed`. -/
def NetworkSpeedKey : String := "speed"

/-- Modelled from the spec: the well-known discovered-nodes root key
(constant `DiscoveredNodesKey`, defined outside src/). -/
def DiscoveredNodesKey : String := "/castle/discovered/nodes"

/-- Modelled from the spec: `path.Join` restricted to two non-empty,
already-clean segments as used by this file (pure string composition). -/
def pathJoin (a b : String) : String := a ++ "/" ++ b

/-- `GetNodeConfigKey` (node.go lines 39-41): key under which a node's
hardware/config is stored. -/
def GetNodeConfigKey (nodeID : String) : String :=
  pathJoin DiscoveredNodesKey nodeID

/-- Split a character list at every occurrence of `sep` (the semantics of
Go `strings.Split` with a one-character separator): the empty input yields
one empty field. -/
def splitChar (sep : Char) : List Char → List (List Char)
  | [] => [[]]
  | c :: cs =>
    let r := splitChar sep cs
    if c = sep then [] :: r
    else
      match r with
      | [] => [[c]]
      | g :: gs => (c :: g) :: gs

/-- Go `strings.Split(s, sep)` for a one-character separator. -/
def goSplit (sep : Char) (s : String) : List String :=
  (splitChar sep s.toList).map (fun l => String.mk l)

/-- Modelled from the spec: `util.GetLeafKeyPath` (pkg/util, outside src/)
returns the final path segment of a hierarchical key. -/
def GetLeafKeyPath (key : String) : String :=
  (goSplit '/' key).getLastD ""

/-- One node of an etcd response tree: key, value, directory flag, children
(`etcd.Node`; a nil `Nodes` slice and an empty one both iterate zero times,
so both are the empty list). -/
inductive EtcdNode : Type where
  | mk (Key Value : String) (Dir : Bool) (Nodes : List EtcdNode)

/-- Key accessor of an etcd tree node. -/
def EtcdNode.Key : EtcdNode → String
  | .mk k _ _ _ => k

/-- Value accessor of an etcd tree node. -/
def EtcdNode.Value : EtcdNode → String
  | .mk _ v _ _ => v

/-- Directory-flag accessor of an etcd tree node. -/
def EtcdNode.Dir : EtcdNode → Bool
  | .mk _ _ d _ => d

/-- Children accessor of an etcd tree node. -/
def EtcdNode.Nodes : EtcdNode → List EtcdNode
  | .mk _ _ _ ns => ns

/-- `etcd.Response`: the `Node` pointer may be nil, hence `Option`. -/
structure EtcdResponse : Type where
  Node : Option EtcdNode

/-- Result of an etcd `Get`: the distinguishable key-not-found error
(`util.IsEtcdKeyNotFound`, modelled from the spec as a variant), any other
error, or a response. -/
inductive GetResult : Type where
  | keyNotFound
  | err (msg : String)
  | ok (resp : EtcdResponse)

/-- The store client capability used by the bulk loader: directory listing
of node ids under `DiscoveredNodesKey` (`util.GetDirChildKeys`, modelled
from the spec), recursive get, and plain get. -/
structure EtcdClient : Type where
  listChildren : Except String (List String)
  getRecursive : String → GetResult
  get : String → GetResult

/-- Modelled from the spec: `DiskConfig` is opaque to this core, a flat
property set produced by the external probe-record decoder. -/
structure DiskConfig : Type where
  props : List (String × String)
deriving DecidableEq, Repr, Inhabited

/-- `ProcessorConfig`: one logical processor.  `Speed` is a `float64` in Go,
abstracted here by its accepted source literal (see file header). -/
structure ProcessorConfig : Type where
  ID : Nat
  PhysicalID : Nat
  Siblings : Nat
  CoreID : Nat
  NumCores : Nat
  Speed : String
  Bits : Nat
deriving DecidableEq, Repr, Inhabited

/-- `MemoryConfig`: total memory size in bytes. -/
structure MemoryConfig : Type where
  TotalSize : Nat
deriving DecidableEq, Repr, Inhabited

/-- `NetworkConfig`: one network adapter. -/
structure NetworkConfig : Type where
  Name : String
  IPv4Address : String
  IPv6Address : String
  Speed : Nat
deriving DecidableEq, Repr, Inhabited

/-- `NodeConfig`: the typed per-node inventory record. -/
structure NodeConfig : Type where
  IPAddress : String
  Disks : List DiskConfig
  Processors : List ProcessorConfig
  Memory : MemoryConfig
  NetworkAdapters : List NetworkConfig
deriving DecidableEq, Repr, Inhabited

/-- The Go zero value `NodeConfig{}` that the bulk loader starts each node
from. -/
def emptyNodeConfig : NodeConfig :=
  { IPAddress := "", Disks := [], Processors := [], Memory := { TotalSize := 0 },
    NetworkAdapters := [] }

/-- The Go zero value `ProcessorConfig{}`. -/
def emptyProcessorConfig : ProcessorConfig :=
  { ID := 0, PhysicalID := 0, Siblings := 0, CoreID := 0, NumCores := 0,
    Speed := "", Bits := 0 }

/-- Numeric value of a digit string. -/
def digitsToNat (l : List Char) : Nat :=
  l.foldl (fun a c => a * 10 + (c.toNat - 48)) 0

/-- `strconv.ParseUint(s, 10, bitSize)`: base-10 unsigned parse, no sign
prefix, error on empty input, any non-digit, or a value outside
`[0, 2^bitSize)`. -/
def goParseUint (bitSize : Nat) (s : String) : Except String Nat :=
  if s = "" then .error "invalid syntax"
  else if s.toList.all (fun c => c.isDigit) then
    let v := digitsToNat s.toList
    if v < 2 ^ bitSize then .ok v else .error "value out of range"
  else .error "invalid syntax"

/-- Scan result of a `strconv.ParseFloat` literal: a finite decimal number,
kept as its exact magnitude `m * 10 ^ e`, or one of the special values
`inf`/`infinity`/`nan` (which parse without error and cannot overflow). -/
inductive GoFloatVal : Type where
  | finite (m : Nat) (e : Int)
  | special

/-- The exponent suffix of a float literal: empty means exponent zero;
otherwise `e`/`E`, an optional sign and one or more digits.  The digit
value saturates at 10000 exactly as Go's `readFloat` saturates its
exponent accumulator: past that point only the sign of the exponent can
matter. -/
def goExpVal : List Char → Option Int
  | [] => some 0
  | c :: rest =>
    if c = 'e' || c = 'E' then
      let signAndRest : Int × List Char :=
        match rest with
        | s :: r2 =>
          if s = '+' then (1, r2) else if s = '-' then (-1, r2) else (1, rest)
        | [] => (1, rest)
      if signAndRest.2 ≠ [] && signAndRest.2.all (fun c2 => c2.isDigit) then
        some (signAndRest.1 * (min (digitsToNat signAndRest.2) 10000 : Nat))
      else none
    else none

/-- Scan a `strconv.ParseFloat(s, 64)` input: an optional sign, then either
a special value (`inf`/`infinity` with or without sign, `nan` only without
a sign, as in Go's `special`), or a decimal mantissa
`digits [. digits] [exp]` / `. digits [exp]` whose exact magnitude is
returned as `m * 10 ^ e`.  `none` is Go's syntax error. -/
def goFloatScan (s : String) : Option GoFloatVal :=
  let l := s.toList
  let hasSign : Bool :=
    match l with
    | c :: _ => c = '+' || c = '-'
    | [] => false
  let body := if hasSign then l.drop 1 else l
  let lower := body.map Char.toLower
  if lower = "inf".toList || lower = "infinity".toList ||
      (!hasSign && lower = "nan".toList) then
    some .special
  else
    let intPart := body.takeWhile (fun c => c.isDigit)
    let rest := body.dropWhile (fun c => c.isDigit)
    match rest with
    | '.' :: rest2 =>
      let frac := rest2.takeWhile (fun c => c.isDigit)
      let rest3 := rest2.dropWhile (fun c => c.isDigit)
      if intPart ≠ [] || frac ≠ [] then
        match goExpVal rest3 with
        | none => none
        | some e => some (.finite (digitsToNat (intPart ++ frac)) (e - frac.length))
      else none
    | _ =>
      if intPart ≠ [] then
        match goExpVal rest with
        | none => none
        | some e => some (.finite (digitsToNat intPart) e)
      else none

/-- Does the scanned literal overflow `float64`?  Rounding to nearest with
ties to even sends a magnitude to infinity exactly when it is at least
`2 ^ 1024 - 2 ^ 970` (half an ulp above the largest finite `float64`), and
that is when `strconv.ParseFloat` reports `ErrRange`; specials and zero
never overflow. -/
def goFloatOverflow : GoFloatVal → Bool
  | .special => false
  | .finite m e =>
    if m = 0 then false
    else if 0 ≤ e then 2 ^ 970 * (2 ^ 54 - 1) ≤ m * 10 ^ e.toNat
    else 10 ^ (-e).toNat * (2 ^ 970 * (2 ^ 54 - 1)) ≤ m

/-- `strconv.ParseFloat(s, 64)` abstracted by its accepted literal: on a
syntactically valid, in-range input the literal itself stands for the
parsed `float64` value; syntax errors and out-of-range magnitudes are the
errors Go reports (the code only checks `err != nil`, so the two are
interchangeable for it). -/
def goParseFloat (s : String) : Except String String :=
  match goFloatScan s with
  | none => .error "invalid syntax"
  | some v => if goFloatOverflow v then .error "value out of range" else .ok s

/-- Bool test for the error case of an `Except`. -/
def isErrB {α : Type} : Except String α → Bool
  | .error _ => true
  | .ok _ => false

/-- Type of the external `GetDiskInfo` probe-record decoder.  Modelled from
the spec: disks are delegated whole to it, out of scope for this core. -/
def DiskDecoder : Type := EtcdNode → Except String DiskConfig

/-- Body of the disk loop of `loadDisksConfig` (node.go lines 162-171):
each child is decoded by `GetDiskInfo`, first error wins, results are placed
positionally. -/
def parseDisks (gdi : DiskDecoder) : List EtcdNode → Except String (List DiskConfig)
  | [] => .ok []
  | diskInfo :: rest =>
    match gdi diskInfo with
    | .error e => .error e
    | .ok disk =>
      match parseDisks gdi rest with
      | .error e => .error e
      | .ok disks => .ok (disk :: disks)

/-- `loadDisksConfig` (node.go lines 153-174): pre-sizes `Disks` to the
child count and fills it positionally; on success that equals wholesale
assignment of the decoded list. -/
def loadDisksConfig (gdi : DiskDecoder) (nodeConfig : NodeConfig)
    (disksRootNode : EtcdNode) : Except String NodeConfig :=
  match parseDisks gdi disksRootNode.Nodes with
  | .error e => .error e
  | .ok disks => .ok { nodeConfig with Disks := disks }

/-- One arm of the processor-property switch (node.go lines 194-235):
recognized numeric properties are converted (fatal on failure), unknown
property names are skipped. -/
def parseProcProperty (proc : ProcessorConfig) (procProperty : EtcdNode) :
    Except String ProcessorConfig :=
  let procPropertyName := GetLeafKeyPath procProperty.Key
  if procPropertyName = ProcPhysicalIDKey then
    match goParseUint 32 procProperty.Value with
    | .error e => .error e
    | .ok v => .ok { proc with PhysicalID := v }
  else if procPropertyName = ProcSiblingsKey then
    match goParseUint 32 procProperty.Value with
    | .error e => .error e
    | .ok v => .ok { proc with Siblings := v }
  else if procPropertyName = ProcCoreIDKey then
    match goParseUint 32 procProperty.Value with
    | .error e => .error e
    | .ok v => .ok { proc with CoreID := v }
  else if procPropertyName = ProcNumCoresKey then
    match goParseUint 32 procProperty.Value with
    | .error e => .error e
    | .ok v => .ok { proc with NumCores := v }
  else if procPropertyName = ProcSpeedKey then
    match goParseFloat procProperty.Value with
    | .error e => .error e
    | .ok v => .ok { proc with Speed := v }
  else if procPropertyName = ProcBitsKey then
    match goParseUint 32 procProperty.Value with
    | .error e => .error e
    | .ok v => .ok { proc with Bits := v }
  else
    .ok proc

/-- The inner property loop of `loadProcessorsConfig`. -/
def parseProcProps : ProcessorConfig → List EtcdNode → Except String ProcessorConfig
  | proc, [] => .ok proc
  | proc, p :: ps =>
    match parseProcProperty proc p with
    | .error e => .error e
    | .ok proc2 => parseProcProps proc2 ps

/-- One iteration of the processor loop (node.go lines 185-239): the child
key segment parses as the unsigned ordinal `ID`, then all properties are
folded in. -/
def parseProcChild (procInfo : EtcdNode) : Except String ProcessorConfig :=
  match goParseUint 32 (GetLeafKeyPath procInfo.Key) with
  | .error e => .error e
  | .ok procID =>
    parseProcProps { emptyProcessorConfig with ID := procID } procInfo.Nodes

/-- The processor loop of `loadProcessorsConfig`: positional, first error
wins. -/
def parseProcessors : List EtcdNode → Except String (List ProcessorConfig)
  | [] => .ok []
  | procInfo :: rest =>
    match parseProcChild procInfo with
    | .error e => .error e
    | .ok proc =>
      match parseProcessors rest with
      | .error e => .error e
      | .ok procs => .ok (proc :: procs)

/-- `loadProcessorsConfig` (node.go lines 176-242). -/
def loadProcessorsConfig (nodeConfig : NodeConfig) (procsRootNode : EtcdNode) :
    Except String NodeConfig :=
  match parseProcessors procsRootNode.Nodes with
  | .error e => .error e
  | .ok procs => .ok { nodeConfig with Processors := procs }

/-- The memory-property loop of `loadMemoryConfig` (node.go lines 246-258):
only `totalsize` is recognized (fatal on parse failure), other keys are
skipped. -/
def parseMemProps : MemoryConfig → List EtcdNode → Except String MemoryConfig
  | mem, [] => .ok mem
  | mem, memProperty :: ps =>
    let memPropertyName := GetLeafKeyPath memProperty.Key
    if memPropertyName = MemoryTotalSizeKey then
      match goParseUint 64 memProperty.Value with
      | .error e => .error e
      | .ok size => parseMemProps { mem with TotalSize := size } ps
    else
      parseMemProps mem ps

/-- `loadMemoryConfig` (node.go lines 244-262): starts from the zero
`MemoryConfig{}` and assigns the folded result. -/
def loadMemoryConfig (nodeConfig : NodeConfig) (memoryRootNode : EtcdNode) :
    Except String NodeConfig :=
  match parseMemProps { TotalSize := 0 } memoryRootNode.Nodes with
  | .error e => .error e
  | .ok mem => .ok { nodeConfig with Memory := mem }

/-- One arm of the network-property switch (node.go lines 278-296):
addresses are copied verbatim, `speed` maps the empty string to zero and
otherwise parses as `uint64` (fatal on failure), unknown names are
skipped. -/
def parseNetProperty (net : NetworkConfig) (netProperty : EtcdNode) :
    Except String NetworkConfig :=
  let netPropertyName := GetLeafKeyPath netProperty.Key
  if netPropertyName = NetworkIPv4AddressKey then
    .ok { net with IPv4Address := netProperty.Value }
  else if netPropertyName = NetworkIPv6AddressKey then
    .ok { net with IPv6Address := netProperty.Value }
  else if netPropertyName = NetworkSpeedKey then
    if netProperty.Value = "" then .ok { net with Speed := 0 }
    else
      match goParseUint 64 netProperty.Value with
      | .error e => .error e
      | .ok speed => .ok { net with Speed := speed }
  else
    .ok net

/-- The inner property loop of `loadNetworkConfig`. -/
def parseNetProps : NetworkConfig → List EtcdNode → Except String NetworkConfig
  | net, [] => .ok net
  | net, p :: ps =>
    match parseNetProperty net p with
    | .error e => .error e
    | .ok net2 => parseNetProps net2 ps

/-- One iteration of the adapter loop (node.go lines 273-299): `Name` is the
child key segment, then all properties are folded in. -/
def parseNetChild (netInfo : EtcdNode) : Except String NetworkConfig :=
  parseNetProps
    { Name := GetLeafKeyPath netInfo.Key, IPv4Address := "", IPv6Address := "",
      Speed := 0 }
    netInfo.Nodes

/-- The adapter loop of `loadNetworkConfig`: positional, first error wins. -/
def parseNetwork : List EtcdNode → Except String (List NetworkConfig)
  | [] => .ok []
  | netInfo :: rest =>
    match parseNetChild netInfo with
    | .error e => .error e
    | .ok net =>
      match parseNetwork rest with
      | .error e => .error e
      | .ok nets => .ok (net :: nets)

/-- `loadNetworkConfig` (node.go lines 264-302). -/
def loadNetworkConfig (nodeConfig : NodeConfig) (networkRootNode : EtcdNode) :
    Except String NodeConfig :=
  match parseNetwork networkRootNode.Nodes with
  | .error e => .error e
  | .ok nets => .ok { nodeConfig with NetworkAdapters := nets }

/-- `loadIPAddressConfig` (node.go lines 304-310): a directory-shaped
`ipaddress` node is an error, otherwise its value is copied. -/
def loadIPAddressConfig (nodeConfig : NodeConfig) (ipAddressNode : EtcdNode) :
    Except String NodeConfig :=
  if ipAddressNode.Dir then
    .error ("IP address node " ++ ipAddressNode.Key ++
      " is a directory, but it is expected to be a key")
  else
    .ok { nodeConfig with IPAddress := ipAddressNode.Value }

/-- The switch body of the dispatch loop of `loadHardwareConfig` (node.go
lines 114-147): dispatch one top-level child on its leaf key segment;
unknown category names are skipped. -/
def loadCategoryStep (gdi : DiskDecoder) (nodeConfig : NodeConfig)
    (nodeConfigRoot : EtcdNode) : Except String NodeConfig :=
  let name := GetLeafKeyPath nodeConfigRoot.Key
  if name = DisksKey then loadDisksConfig gdi nodeConfig nodeConfigRoot
  else if name = ProcessorsKey then loadProcessorsConfig nodeConfig nodeConfigRoot
  else if name = MemoryKey then loadMemoryConfig nodeConfig nodeConfigRoot
  else if name = NetworkKey then loadNetworkConfig nodeConfig nodeConfigRoot
  else if name = IpAddressKey then loadIPAddressConfig nodeConfig nodeConfigRoot
  else .ok nodeConfig

/-- The dispatch loop of `loadHardwareConfig` (node.go lines 113-148): each
top-level child is dispatched, any parser error aborts. -/
def loadCategories (gdi : DiskDecoder) (nodeId : String) :
    NodeConfig → List EtcdNode → Except String NodeConfig
  | nodeConfig, [] => .ok nodeConfig
  | nodeConfig, nodeConfigRoot :: rest =>
    match loadCategoryStep gdi nodeConfig nodeConfigRoot with
    | .error e => .error e
    | .ok nodeConfig2 => loadCategories gdi nodeId nodeConfig2 rest

/-- `loadHardwareConfig` (node.go lines 108-151): nil response or nil root
node is the "hardware info missing" error, otherwise the children are
dispatched. -/
def loadHardwareConfig (gdi : DiskDecoder) (nodeId : String)
    (nodeConfig : NodeConfig) (nodeInfo : Option EtcdResponse) :
    Except String NodeConfig :=
  match nodeInfo with
  | none => .error "hardware info missing"
  | some info =>
    match info.Node with
    | none => .error "hardware info missing"
    | some root => loadCategories gdi nodeId nodeConfig root.Nodes

/-- `GetIpAddress` (node.go lines 89-98): plain get of the `ipaddress` leaf;
every error, key-not-found included, propagates. -/
def GetIpAddress (etcdClient : EtcdClient) (nodeId : String) :
    Except String String :=
  match etcdClient.get (pathJoin (GetNodeConfigKey nodeId) IpAddressKey) with
  | .keyNotFound => .error "key not found"
  | .err m => .error m
  | .ok val => .ok ((val.Node.map EtcdNode.Value).getD "")

/-- The result mapping of the bulk loader, as a lookup function. -/
def NodeMap : Type := String → Option NodeConfig

/-- Go map insertion (overwrite semantics). -/
def mapInsert (m : NodeMap) (k : String) (v : NodeConfig) : NodeMap :=
  fun x => if x = k then some v else m x

/-- The per-node loop of `loadNodeConfig` (node.go lines 55-83): not-found
on the recursive fetch skips the node; any other fetch error skips only the
decode; a decode error aborts; the IP address is fetched and stored for
every non-skipped node, a failure there aborting. -/
def loadNodesLoop (gdi : DiskDecoder) (etcdClient : EtcdClient) :
    List String → NodeMap → Except String NodeMap
  | [], acc => .ok acc
  | node :: rest, acc =>
    match etcdClient.getRecursive (GetNodeConfigKey node) with
    | .keyNotFound => loadNodesLoop gdi etcdClient rest acc
    | .err _ =>
      match GetIpAddress etcdClient node with
      | .error e => .error e
      | .ok ipAddr =>
        loadNodesLoop gdi etcdClient rest
          (mapInsert acc node { emptyNodeConfig with IPAddress := ipAddr })
    | .ok nodeInfo =>
      match loadHardwareConfig gdi node emptyNodeConfig (some nodeInfo) with
      | .error e => .error e
      | .ok nodeConfig =>
        match GetIpAddress etcdClient node with
        | .error e => .error e
        | .ok ipAddr =>
          loadNodesLoop gdi etcdClient rest
            (mapInsert acc node { nodeConfig with IPAddress := ipAddr })

/-- `loadNodeConfig` (node.go lines 44-86): list the discovered node ids and
run the per-node loop from the empty mapping. -/
def loadNodeConfig (gdi : DiskDecoder) (etcdClient : EtcdClient) :
    Except String NodeMap :=
  match etcdClient.listChildren with
  | .error e => .error e
  | .ok nodes => loadNodesLoop gdi etcdClient nodes (fun _ => none)

/-- Lookup of one key in the bulk-load result: `none` when the load failed,
otherwise the mapping entry. -/
def lookupLoaded (gdi : DiskDecoder) (etcdClient : EtcdClient) (k : String) :
    Option (Option NodeConfig) :=
  match loadNodeConfig gdi etcdClient with
  | .error _ => none
  | .ok m => some (m k)

/-- `strings.Replace(s, quote, "", -1)`: remove every double-quote
character. -/
def removeQuotes (s : String) : String :=
  String.mk (s.toList.filter (fun c => c ≠ '\"'))

/-- The loop body of `parseKeyValuePairString` (node.go lines 321-329):
split one token on the equals sign; exactly two parts insert (overwrite
semantics) the key with the quote-stripped value, anything else is
dropped. -/
def kvStep (propMap : String → Option String) (kvpRaw : String) :
    String → Option String :=
  match goSplit '=' kvpRaw with
  | [k, v] => fun x => if x = k then some (removeQuotes v) else propMap x
  | _ => propMap

/-- `parseKeyValuePairString` (node.go lines 315-332): split on single
spaces and fold every token through `kvStep`, starting from the empty
map. -/
def parseKeyValuePairString (propsRaw : String) : String → Option String :=
  (goSplit ' ' propsRaw).foldl kvStep (fun _ => none)

/-- The last child of a list whose leaf key segment equals `name`: the
occurrence whose parse result survives the dispatch loop's overwrites. -/
def lastCat (name : String) : List EtcdNode → Option EtcdNode
  | [] => none
  | x :: xs =>
    match lastCat name xs with
    | some d => some d
    | none => if GetLeafKeyPath x.Key = name then some x else none

/-- Does this processor property abort the decode (recognized name whose
value fails its numeric conversion)? -/
def procPropErrB (q : EtcdNode) : Bool :=
  let n := GetLeafKeyPath q.Key
  if n = ProcPhysicalIDKey then isErrB (goParseUint 32 q.Value)
  else if n = ProcSiblingsKey then isErrB (goParseUint 32 q.Value)
  else if n = ProcCoreIDKey then isErrB (goParseUint 32 q.Value)
  else if n = ProcNumCoresKey then isErrB (goParseUint 32 q.Value)
  else if n = ProcSpeedKey then isErrB (goParseFloat q.Value)
  else if n = ProcBitsKey then isErrB (goParseUint 32 q.Value)
  else false

/-- Does this memory property abort the decode? -/
def memPropErrB (q : EtcdNode) : Bool :=
  GetLeafKeyPath q.Key = MemoryTotalSizeKey && isErrB (goParseUint 64 q.Value)

/-- Does this network-adapter property abort the decode (a non-empty
`speed` value failing the unsigned parse)? -/
def netPropErrB (q : EtcdNode) : Bool :=
  GetLeafKeyPath q.Key = NetworkSpeedKey && !(q.Value = "") &&
    isErrB (goParseUint 64 q.Value)

/-- Spec-side predicate: does the subtree contain a malformed recognized
leaf in the sense of the spec — a processor ordinal or recognized processor
property failing its numeric conversion, a memory `totalsize` failing the
unsigned parse, or a non-empty network `speed` failing the unsigned
parse? -/
def specMalformedLeaf (root : EtcdNode) : Bool :=
  root.Nodes.any fun cat =>
    let cname := GetLeafKeyPath cat.Key
    if cname = ProcessorsKey then
      cat.Nodes.any fun p =>
        isErrB (goParseUint 32 (GetLeafKeyPath p.Key)) || p.Nodes.any procPropErrB
    else if cname = MemoryKey then
      cat.Nodes.any memPropErrB
    else if cname = NetworkKey then
      cat.Nodes.any fun a => a.Nodes.any netPropErrB
    else false

/-- Does one dispatch step of the decode loop abort, as a function of the
child alone (the incoming config never affects error-ness)? -/
def catError (gdi : DiskDecoder) (x : EtcdNode) : Bool :=
  let name := GetLeafKeyPath x.Key
  if name = DisksKey then isErrB (parseDisks gdi x.Nodes)
  else if name = ProcessorsKey then isErrB (parseProcessors x.Nodes)
  else if name = MemoryKey then isErrB (parseMemProps { TotalSize := 0 } x.Nodes)
  else if name = NetworkKey then isErrB (parseNetwork x.Nodes)
  else if name = IpAddressKey then x.Dir
  else false

/-- Spec-side lookup for the key-value-pair parser, following the claim:
among the tokens, those splitting on the equals sign into exactly two parts
contribute their quote-stripped value, later tokens overwriting earlier
ones for the same key. -/
def specKVLookup (k : String) : List String → Option String
  | [] => none
  | t :: ts =>
    match specKVLookup k ts with
    | some v => some v
    | none =>
      match goSplit '=' t with
      | [a, b] => if a = k then some (removeQuotes b) else none
      | _ => none

/-- A concrete disk decoder used by the concrete examples below. -/
def gdiK : DiskDecoder := fun n => .ok { props := [("value", n.Value)] }

/-- A concrete client whose single node `a` answers the recursive fetch
with a non-not-found error while its IP-address key reads fine. -/
def clientFetchErr : EtcdClient :=
  { listChildren := .ok ["a"]
    getRecursive := fun _ => .err "boom"
    get := fun _ => .ok { Node := some (.mk "ip" "1.2.3.4" false []) } }

/-- A concrete client whose single node `a` answers the recursive fetch
with a non-not-found error and whose IP-address key read also fails. -/
def clientFetchErrIpErr : EtcdClient :=
  { listChildren := .ok ["a"]
    getRecursive := fun _ => .err "boom"
    get := fun _ => .err "ipboom" }

/-- A concrete client whose single node `a` has no hardware subtree
(key-not-found) and whose IP-address key read fails. -/
def clientNotFoundIpErr : EtcdClient :=
  { listChildren := .ok ["a"]
    getRecursive := fun _ => .keyNotFound
    get := fun _ => .err "ipboom" }

/-- A valid single-processor subtree root used by the concrete examples. -/
def rootValidK : EtcdNode :=
  .mk "/castle/discovered/nodes/a" "" true
    [.mk "/castle/discovered/nodes/a/cpu" "" true
      [.mk "/castle/discovered/nodes/a/cpu/0" "" true
        [.mk "/castle/discovered/nodes/a/cpu/0/bits" "64" false []]]]

/-- A subtree root with a malformed recognized leaf: the memory `totalsize`
value is not a number. -/
def rootBadMemK : EtcdNode :=
  .mk "/castle/discovered/nodes/a" "" true
    [.mk "/castle/discovered/nodes/a/mem" "" true
      [.mk "/castle/discovered/nodes/a/mem/totalsize" "4x096" false []]]

/-- A concrete client whose single node `a` has the valid subtree above and
a readable IP-address key. -/
def clientValidK : EtcdClient :=
  { listChildren := .ok ["a"]
    getRecursive := fun _ => .ok { Node := some rootValidK }
    get := fun _ => .ok { Node := some (.mk "ip" "10.0.0.7" false []) } }

/-- The decode-plus-IP result for node `a` of `clientValidK`. -/
def cfgValidK : NodeConfig :=
  { IPAddress := "10.0.0.7", Disks := [],
    Processors := [
      { ID := 0, PhysicalID := 0, Siblings := 0, CoreID := 0, NumCores := 0,
        Speed := "", Bits := 64 }],
    Memory := { TotalSize := 0 }, NetworkAdapters := [] }

/-- A concrete client for the not-found skip: node `a` has no subtree,
node `b` fetches a non-not-found error but reads an IP fine. -/
def clientSkipK : EtcdClient :=
  { listChildren := .ok ["a", "b"]
    getRecursive := fun k =>
      if k = GetNodeConfigKey "a" then .keyNotFound else .err "hiccup"
    get := fun _ => .ok { Node := some (.mk "ip" "10.0.0.8" false []) } }

/-- A subtree root whose processor `speed` literal is syntactically valid
but overflows `float64`, which `strconv.ParseFloat` reports as a range
error and node.go treats as fatal. -/
def rootRangeSpeedK : EtcdNode :=
  .mk "/castle/discovered/nodes/a" "" true
    [.mk "/castle/discovered/nodes/a/cpu" "" true
      [.mk "/castle/discovered/nodes/a/cpu/0" "" true
        [.mk "/castle/discovered/nodes/a/cpu/0/speed" "1e309" false []]]]

/-- A concrete client whose single node `a` has the malformed-memory
subtree above. -/
def clientBadMemK : EtcdClient :=
  { listChildren := .ok ["a"]
    getRecursive := fun _ => .ok { Node := some rootBadMemK }
    get := fun _ => .ok { Node := some (.mk "ip" "10.0.0.7" false []) } }

/-- A subtree root whose processor has an empty-string `speed` property. -/
def rootEmptySpeedK : EtcdNode :=
  .mk "/castle/discovered/nodes/a" "" true
    [.mk "/castle/discovered/nodes/a/cpu" "" true
      [.mk "/castle/discovered/nodes/a/cpu/0" "" true
        [.mk "/castle/discovered/nodes/a/cpu/0/speed" "" false []]]]

/-- A subtree root whose memory `totalsize` property is the empty string. -/
def rootEmptyTotalK : EtcdNode :=
  .mk "/castle/discovered/nodes/a" "" true
    [.mk "/castle/discovered/nodes/a/mem" "" true
      [.mk "/castle/discovered/nodes/a/mem/totalsize" "" false []]]

/-- A subtree root exercising all three sequence categories: two disks, one
processor, one network adapter. -/
def rootSeqK : EtcdNode :=
  .mk "/castle/discovered/nodes/a" "" true
    [.mk "/castle/discovered/nodes/a/disks" "" true
      [.mk "/castle/discovered/nodes/a/disks/sda" "d0" false [],
       .mk "/castle/discovered/nodes/a/disks/sdb" "d1" false []],
     .mk "/castle/discovered/nodes/a/cpu" "" true
      [.mk "/castle/discovered/nodes/a/cpu/0" "" true
        [.mk "/castle/discovered/nodes/a/cpu/0/numcores" "4" false []]],
     .mk "/castle/discovered/nodes/a/net" "" true
      [.mk "/castle/discovered/nodes/a/net/eth0" "" true
        [.mk "/castle/discovered/nodes/a/net/eth0/speed" "1000" false []]]]

/-- The `disks` child of `rootSeqK`. -/
def disksChildK : EtcdNode :=
  .mk "/castle/discovered/nodes/a/disks" "" true
    [.mk "/castle/discovered/nodes/a/disks/sda" "d0" false [],
     .mk "/castle/discovered/nodes/a/disks/sdb" "d1" false []]

/-- The `cpu` child of `rootSeqK`. -/
def cpuChildK : EtcdNode :=
  .mk "/castle/discovered/nodes/a/cpu" "" true
    [.mk "/castle/discovered/nodes/a/cpu/0" "" true
      [.mk "/castle/discovered/nodes/a/cpu/0/numcores" "4" false []]]

/-- The `net` child of `rootSeqK`. -/
def netChildK : EtcdNode :=
  .mk "/castle/discovered/nodes/a/net" "" true
    [.mk "/castle/discovered/nodes/a/net/eth0" "" true
      [.mk "/castle/discovered/nodes/a/net/eth0/speed" "1000" false []]]

/-- The decode result of `rootSeqK` under `gdiK`. -/
def rSeqK : NodeConfig :=
  { IPAddress := "",
    Disks := [{ props := [("value", "d0")] }, { props := [("value", "d1")] }],
    Processors := [
      { ID := 0, PhysicalID := 0, Siblings := 0, CoreID := 0, NumCores := 4,
        Speed := "", Bits := 0 }],
    Memory := { TotalSize := 0 },
    NetworkAdapters := [
      { Name := "eth0", IPv4Address := "", IPv6Address := "", Speed := 1000 }] }


theorem kvFold_lookup (k : String) :
    ∀ (ts : List String) (m : String → Option String),
      (ts.foldl kvStep m) k =
        match specKVLookup k ts with
        | some v => some v
        | none => m k := by
  intro ts
  induction ts with
  | nil => intro m; rfl
  | cons t ts ih =>
    intro m
    rw [List.foldl_cons, ih]
    cases hts : specKVLookup k ts with
    | some v => simp [specKVLookup, hts]
    | none =>
      simp only [specKVLookup, hts, kvStep]
      cases hsp : goSplit '=' t with
      | nil => simp
      | cons a rest =>
        cases rest with
        | nil => simp
        | cons b rest2 =>
          cases rest2 with
          | nil =>
            by_cases hk : a = k
            · subst hk; simp
            · have hk2 : ¬ k = a := fun h => hk h.symm
              simp [hk, hk2]
          | cons c rest3 => simp

theorem loadDisksConfig_err (gdi : DiskDecoder) (cfg : NodeConfig) (d : EtcdNode) :
    isErrB (loadDisksConfig gdi cfg d) = isErrB (parseDisks gdi d.Nodes) := by
  unfold loadDisksConfig
  cases h : parseDisks gdi d.Nodes <;> simp [h, isErrB]

theorem loadProcessorsConfig_err (cfg : NodeConfig) (x : EtcdNode) :
    isErrB (loadProcessorsConfig cfg x) = isErrB (parseProcessors x.Nodes) := by
  unfold loadProcessorsConfig
  cases h : parseProcessors x.Nodes <;> simp [h, isErrB]

theorem loadMemoryConfig_err (cfg : NodeConfig) (x : EtcdNode) :
    isErrB (loadMemoryConfig cfg x) = isErrB (parseMemProps { TotalSize := 0 } x.Nodes) := by
  unfold loadMemoryConfig
  cases h : parseMemProps { TotalSize := 0 } x.Nodes <;> simp [h, isErrB]

theorem loadNetworkConfig_err (cfg : NodeConfig) (x : EtcdNode) :
    isErrB (loadNetworkConfig cfg x) = isErrB (parseNetwork x.Nodes) := by
  unfold loadNetworkConfig
  cases h : parseNetwork x.Nodes <;> simp [h, isErrB]

theorem loadIPAddressConfig_err (cfg : NodeConfig) (x : EtcdNode) :
    isErrB (loadIPAddressConfig cfg x) = x.Dir := by
  unfold loadIPAddressConfig
  cases h : x.Dir <;> simp [h, isErrB]

theorem parseProcProperty_err (proc : ProcessorConfig) (q : EtcdNode) :
    isErrB (parseProcProperty proc q) = procPropErrB q := by
  simp only [parseProcProperty, procPropErrB]
  split_ifs <;>
    first
      | rfl
      | (cases hg : goParseUint 32 q.Value <;> rfl)
      | (cases hg : goParseFloat q.Value <;> rfl)

theorem parseProcProps_err :
    ∀ (l : List EtcdNode) (proc : ProcessorConfig),
      isErrB (parseProcProps proc l) = l.any procPropErrB := by
  intro l
  induction l with
  | nil => intro proc; rfl
  | cons p ps ih =>
    intro proc
    rw [List.any_cons, ← parseProcProperty_err proc p]
    rw [show parseProcProps proc (p :: ps) =
        (match parseProcProperty proc p with
         | .error e => .error e
         | .ok proc2 => parseProcProps proc2 ps) from rfl]
    cases h : parseProcProperty proc p with
    | error e => rfl
    | ok proc2 => exact ih proc2

theorem parseProcChild_err (p : EtcdNode) :
    isErrB (parseProcChild p) =
      (isErrB (goParseUint 32 (GetLeafKeyPath p.Key)) || p.Nodes.any procPropErrB) := by
  unfold parseProcChild
  cases hg : goParseUint 32 (GetLeafKeyPath p.Key) with
  | error e => rfl
  | ok v => exact parseProcProps_err p.Nodes _

theorem parseProcessors_err :
    ∀ l : List EtcdNode,
      isErrB (parseProcessors l) = l.any (fun p => isErrB (parseProcChild p)) := by
  intro l
  induction l with
  | nil => rfl
  | cons p ps ih =>
    rw [List.any_cons, ← ih]
    rw [show parseProcessors (p :: ps) =
        (match parseProcChild p with
         | .error e => .error e
         | .ok proc =>
           match parseProcessors ps with
           | .error e => .error e
           | .ok procs => .ok (proc :: procs)) from rfl]
    cases parseProcChild p with
    | error e => rfl
    | ok proc =>
      cases parseProcessors ps with
      | error e => rfl
      | ok procs => rfl

theorem parseMemProps_err :
    ∀ (l : List EtcdNode) (mem : MemoryConfig),
      isErrB (parseMemProps mem l) = l.any memPropErrB := by
  intro l
  induction l with
  | nil => intro mem; rfl
  | cons q qs ih =>
    intro mem
    rw [List.any_cons]
    rw [show parseMemProps mem (q :: qs) =
        (if GetLeafKeyPath q.Key = MemoryTotalSizeKey then
          match goParseUint 64 q.Value with
          | .error e => .error e
          | .ok size => parseMemProps { mem with TotalSize := size } qs
         else parseMemProps mem qs) from rfl]
    by_cases hq : GetLeafKeyPath q.Key = MemoryTotalSizeKey
    · have hm : memPropErrB q = isErrB (goParseUint 64 q.Value) := by
        simp [memPropErrB, hq]
      rw [if_pos hq, hm]
      cases goParseUint 64 q.Value with
      | error e => rfl
      | ok size => exact ih _
    · have hm : memPropErrB q = false := by simp [memPropErrB, hq]
      rw [if_neg hq, hm]
      simp only [Bool.false_or]
      exact ih mem

theorem parseNetProperty_err (net : NetworkConfig) (q : EtcdNode) :
    isErrB (parseNetProperty net q) = netPropErrB q := by
  simp only [parseNetProperty, netPropErrB]
  split_ifs <;>
    (cases hg : goParseUint 64 q.Value <;>
      simp_all [isErrB, NetworkIPv4AddressKey, NetworkIPv6AddressKey,
        NetworkSpeedKey])

theorem parseNetProps_err :
    ∀ (l : List EtcdNode) (net : NetworkConfig),
      isErrB (parseNetProps net l) = l.any netPropErrB := by
  intro l
  induction l with
  | nil => intro net; rfl
  | cons q qs ih =>
    intro net
    rw [List.any_cons, ← parseNetProperty_err net q]
    rw [show parseNetProps net (q :: qs) =
        (match parseNetProperty net q with
         | .error e => .error e
         | .ok net2 => parseNetProps net2 qs) from rfl]
    cases parseNetProperty net q with
    | error e => rfl
    | ok net2 => exact ih net2

theorem parseNetChild_err (a : EtcdNode) :
    isErrB (parseNetChild a) = a.Nodes.any netPropErrB := by
  unfold parseNetChild
  exact parseNetProps_err a.Nodes _

theorem parseNetwork_err :
    ∀ l : List EtcdNode,
      isErrB (parseNetwork l) = l.any (fun a => isErrB (parseNetChild a)) := by
  intro l
  induction l with
  | nil => rfl
  | cons a as ih =>
    rw [List.any_cons, ← ih]
    rw [show parseNetwork (a :: as) =
        (match parseNetChild a with
         | .error e => .error e
         | .ok net =>
           match parseNetwork as with
           | .error e => .error e
           | .ok nets => .ok (net :: nets)) from rfl]
    cases parseNetChild a with
    | error e => rfl
    | ok net =>
      cases parseNetwork as with
      | error e => rfl
      | ok nets => rfl

theorem loadCategoryStep_err (gdi : DiskDecoder) (cfg : NodeConfig) (x : EtcdNode) :
    isErrB (loadCategoryStep gdi cfg x) = catError gdi x := by
  simp only [loadCategoryStep, catError]
  split_ifs <;>
    first
      | rfl
      | exact loadDisksConfig_err gdi cfg x
      | exact loadProcessorsConfig_err cfg x
      | exact loadMemoryConfig_err cfg x
      | exact loadNetworkConfig_err cfg x
      | exact loadIPAddressConfig_err cfg x

theorem loadCategories_err (gdi : DiskDecoder) (nodeId : String) :
    ∀ (l : List EtcdNode) (cfg : NodeConfig),
      isErrB (loadCategories gdi nodeId cfg l) = l.any (catError gdi) := by
  intro l
  induction l with
  | nil => intro cfg; rfl
  | cons x xs ih =>
    intro cfg
    rw [List.any_cons, ← loadCategoryStep_err gdi cfg x]
    rw [show loadCategories gdi nodeId cfg (x :: xs) =
        (match loadCategoryStep gdi cfg x with
         | .error e => .error e
         | .ok cfg2 => loadCategories gdi nodeId cfg2 xs) from rfl]
    cases loadCategoryStep gdi cfg x with
    | error e => rfl
    | ok cfg2 => exact ih cfg2

theorem loadDisksConfig_ok (gdi : DiskDecoder) (cfg : NodeConfig) (x : EtcdNode)
    (cfg2 : NodeConfig) (h : loadDisksConfig gdi cfg x = .ok cfg2) :
    ∃ ds, parseDisks gdi x.Nodes = .ok ds ∧ cfg2 = { cfg with Disks := ds } := by
  simp only [loadDisksConfig] at h
  cases hp : parseDisks gdi x.Nodes with
  | error e => rw [hp] at h; cases h
  | ok ds => rw [hp] at h; cases h; exact ⟨ds, rfl, rfl⟩

theorem loadProcessorsConfig_ok (cfg : NodeConfig) (x : EtcdNode)
    (cfg2 : NodeConfig) (h : loadProcessorsConfig cfg x = .ok cfg2) :
    ∃ ps, parseProcessors x.Nodes = .ok ps ∧ cfg2 = { cfg with Processors := ps } := by
  simp only [loadProcessorsConfig] at h
  cases hp : parseProcessors x.Nodes with
  | error e => rw [hp] at h; cases h
  | ok ps => rw [hp] at h; cases h; exact ⟨ps, rfl, rfl⟩

theorem loadMemoryConfig_ok (cfg : NodeConfig) (x : EtcdNode)
    (cfg2 : NodeConfig) (h : loadMemoryConfig cfg x = .ok cfg2) :
    ∃ mem, parseMemProps { TotalSize := 0 } x.Nodes = .ok mem ∧
      cfg2 = { cfg with Memory := mem } := by
  simp only [loadMemoryConfig] at h
  cases hp : parseMemProps { TotalSize := 0 } x.Nodes with
  | error e => rw [hp] at h; cases h
  | ok mem => rw [hp] at h; cases h; exact ⟨mem, rfl, rfl⟩

theorem loadNetworkConfig_ok (cfg : NodeConfig) (x : EtcdNode)
    (cfg2 : NodeConfig) (h : loadNetworkConfig cfg x = .ok cfg2) :
    ∃ ns, parseNetwork x.Nodes = .ok ns ∧
      cfg2 = { cfg with NetworkAdapters := ns } := by
  simp only [loadNetworkConfig] at h
  cases hp : parseNetwork x.Nodes with
  | error e => rw [hp] at h; cases h
  | ok ns => rw [hp] at h; cases h; exact ⟨ns, rfl, rfl⟩

theorem loadIPAddressConfig_ok (cfg : NodeConfig) (x : EtcdNode)
    (cfg2 : NodeConfig) (h : loadIPAddressConfig cfg x = .ok cfg2) :
    cfg2 = { cfg with IPAddress := x.Value } := by
  simp only [loadIPAddressConfig] at h
  by_cases hd : x.Dir
  · rw [if_pos hd] at h; cases h
  · rw [if_neg hd] at h; cases h; rfl

theorem loadCategoryStep_preserve (gdi : DiskDecoder) (cfg : NodeConfig)
    (x : EtcdNode) (cfg2 : NodeConfig)
    (h : loadCategoryStep gdi cfg x = .ok cfg2) :
    (¬ GetLeafKeyPath x.Key = DisksKey → cfg2.Disks = cfg.Disks)
    ∧ (¬ GetLeafKeyPath x.Key = ProcessorsKey → cfg2.Processors = cfg.Processors)
    ∧ (¬ GetLeafKeyPath x.Key = NetworkKey →
        cfg2.NetworkAdapters = cfg.NetworkAdapters) := by
  simp only [loadCategoryStep] at h
  split_ifs at h with h1 h2 h3 h4 h5
  · obtain ⟨ds, hp, hc⟩ := loadDisksConfig_ok gdi cfg x cfg2 h
    exact ⟨fun hx => absurd h1 hx, fun _ => by rw [hc], fun _ => by rw [hc]⟩
  · obtain ⟨ps, hp, hc⟩ := loadProcessorsConfig_ok cfg x cfg2 h
    exact ⟨fun _ => by rw [hc], fun hx => absurd h2 hx, fun _ => by rw [hc]⟩
  · obtain ⟨mem, hp, hc⟩ := loadMemoryConfig_ok cfg x cfg2 h
    exact ⟨fun _ => by rw [hc], fun _ => by rw [hc], fun _ => by rw [hc]⟩
  · obtain ⟨ns, hp, hc⟩ := loadNetworkConfig_ok cfg x cfg2 h
    exact ⟨fun _ => by rw [hc], fun _ => by rw [hc], fun hx => absurd h4 hx⟩
  · have hc := loadIPAddressConfig_ok cfg x cfg2 h
    exact ⟨fun _ => by rw [hc], fun _ => by rw [hc], fun _ => by rw [hc]⟩
  · cases h
    exact ⟨fun _ => rfl, fun _ => rfl, fun _ => rfl⟩

theorem loadCategories_disks (gdi : DiskDecoder) (nodeId : String) :
    ∀ (l : List EtcdNode) (cfg cfg2 : NodeConfig),
      loadCategories gdi nodeId cfg l = .ok cfg2 →
      (∀ d, lastCat DisksKey l = some d →
        ∃ ds, parseDisks gdi d.Nodes = .ok ds ∧ cfg2.Disks = ds)
      ∧ (lastCat DisksKey l = none → cfg2.Disks = cfg.Disks) := by
  intro l
  induction l with
  | nil =>
    intro cfg cfg2 h
    cases h
    constructor
    · intro d hd
      cases hd
    · intro _
      rfl
  | cons x xs ih =>
    intro cfg cfg2 h
    rw [show loadCategories gdi nodeId cfg (x :: xs) =
        (match loadCategoryStep gdi cfg x with
         | .error e => .error e
         | .ok c2 => loadCategories gdi nodeId c2 xs) from rfl] at h
    cases hs : loadCategoryStep gdi cfg x with
    | error e => rw [hs] at h; cases h
    | ok cmid =>
      rw [hs] at h
      have ihm := ih cmid cfg2 h
      have hlc : lastCat DisksKey (x :: xs) =
          (match lastCat DisksKey xs with
           | some d2 => some d2
           | none => if GetLeafKeyPath x.Key = DisksKey then some x else none) := rfl
      constructor
      · intro d hd
        rw [hlc] at hd
        cases ht : lastCat DisksKey xs with
        | some d2 =>
          rw [ht] at hd
          cases hd
          exact ihm.1 d ht
        | none =>
          rw [ht] at hd
          by_cases hx : GetLeafKeyPath x.Key = DisksKey
          · rw [if_pos hx] at hd
            cases hd
            have hstep : loadDisksConfig gdi cfg x = .ok cmid := by
              rw [← hs]
              simp only [loadCategoryStep]
              rw [if_pos hx]
            obtain ⟨ds, hp, hcm⟩ := loadDisksConfig_ok gdi cfg x cmid hstep
            exact ⟨ds, hp, by rw [ihm.2 ht, hcm]⟩
          · rw [if_neg hx] at hd
            cases hd
      · intro hn
        rw [hlc] at hn
        cases ht : lastCat DisksKey xs with
        | some d2 => rw [ht] at hn; cases hn
        | none =>
          rw [ht] at hn
          by_cases hx : GetLeafKeyPath x.Key = DisksKey
          · rw [if_pos hx] at hn; cases hn
          · rw [ihm.2 ht]
            exact (loadCategoryStep_preserve gdi cfg x cmid hs).1 hx

theorem loadCategories_procs (gdi : DiskDecoder) (nodeId : String) :
    ∀ (l : List EtcdNode) (cfg cfg2 : NodeConfig),
      loadCategories gdi nodeId cfg l = .ok cfg2 →
      (∀ d, lastCat ProcessorsKey l = some d →
        ∃ ps, parseProcessors d.Nodes = .ok ps ∧ cfg2.Processors = ps)
      ∧ (lastCat ProcessorsKey l = none → cfg2.Processors = cfg.Processors) := by
  intro l
  induction l with
  | nil =>
    intro cfg cfg2 h
    cases h
    constructor
    · intro d hd
      cases hd
    · intro _
      rfl
  | cons x xs ih =>
    intro cfg cfg2 h
    rw [show loadCategories gdi nodeId cfg (x :: xs) =
        (match loadCategoryStep gdi cfg x with
         | .error e => .error e
         | .ok c2 => loadCategories gdi nodeId c2 xs) from rfl] at h
    cases hs : loadCategoryStep gdi cfg x with
    | error e => rw [hs] at h; cases h
    | ok cmid =>
      rw [hs] at h
      have ihm := ih cmid cfg2 h
      have hlc : lastCat ProcessorsKey (x :: xs) =
          (match lastCat ProcessorsKey xs with
           | some d2 => some d2
           | none => if GetLeafKeyPath x.Key = ProcessorsKey then some x else none) := rfl
      constructor
      · intro d hd
        rw [hlc] at hd
        cases ht : lastCat ProcessorsKey xs with
        | some d2 =>
          rw [ht] at hd
          cases hd
          exact ihm.1 d ht
        | none =>
          rw [ht] at hd
          by_cases hx : GetLeafKeyPath x.Key = ProcessorsKey
          · rw [if_pos hx] at hd
            cases hd
            have hstep : loadProcessorsConfig cfg x = .ok cmid := by
              rw [← hs]
              simp only [loadCategoryStep]
              rw [if_neg (by rw [hx]; simp [ProcessorsKey, DisksKey]), if_pos hx]
            obtain ⟨ps, hp, hcm⟩ := loadProcessorsConfig_ok cfg x cmid hstep
            exact ⟨ps, hp, by rw [ihm.2 ht, hcm]⟩
          · rw [if_neg hx] at hd
            cases hd
      · intro hn
        rw [hlc] at hn
        cases ht : lastCat ProcessorsKey xs with
        | some d2 => rw [ht] at hn; cases hn
        | none =>
          rw [ht] at hn
          by_cases hx : GetLeafKeyPath x.Key = ProcessorsKey
          · rw [if_pos hx] at hn; cases hn
          · rw [ihm.2 ht]
            exact (loadCategoryStep_preserve gdi cfg x cmid hs).2.1 hx

theorem loadCategories_nets (gdi : DiskDecoder) (nodeId : String) :
    ∀ (l : List EtcdNode) (cfg cfg2 : NodeConfig),
      loadCategories gdi nodeId cfg l = .ok cfg2 →
      (∀ d, lastCat NetworkKey l = some d →
        ∃ ns, parseNetwork d.Nodes = .ok ns ∧ cfg2.NetworkAdapters = ns)
      ∧ (lastCat NetworkKey l = none →
          cfg2.NetworkAdapters = cfg.NetworkAdapters) := by
  intro l
  induction l with
  | nil =>
    intro cfg cfg2 h
    cases h
    constructor
    · intro d hd
      cases hd
    · intro _
      rfl
  | cons x xs ih =>
    intro cfg cfg2 h
    rw [show loadCategories gdi nodeId cfg (x :: xs) =
        (match loadCategoryStep gdi cfg x with
         | .error e => .error e
         | .ok c2 => loadCategories gdi nodeId c2 xs) from rfl] at h
    cases hs : loadCategoryStep gdi cfg x with
    | error e => rw [hs] at h; cases h
    | ok cmid =>
      rw [hs] at h
      have ihm := ih cmid cfg2 h
      have hlc : lastCat NetworkKey (x :: xs) =
          (match lastCat NetworkKey xs with
           | some d2 => some d2
           | none => if GetLeafKeyPath x.Key = NetworkKey then some x else none) := rfl
      constructor
      · intro d hd
        rw [hlc] at hd
        cases ht : lastCat NetworkKey xs with
        | some d2 =>
          rw [ht] at hd
          cases hd
          exact ihm.1 d ht
        | none =>
          rw [ht] at hd
          by_cases hx : GetLeafKeyPath x.Key = NetworkKey
          · rw [if_pos hx] at hd
            cases hd
            have hstep : loadNetworkConfig cfg x = .ok cmid := by
              rw [← hs]
              simp only [loadCategoryStep]
              rw [if_neg (by rw [hx]; simp [NetworkKey, DisksKey]),
                if_neg (by rw [hx]; simp [NetworkKey, ProcessorsKey]),
                if_neg (by rw [hx]; simp [NetworkKey, MemoryKey]), if_pos hx]
            obtain ⟨ns, hp, hcm⟩ := loadNetworkConfig_ok cfg x cmid hstep
            exact ⟨ns, hp, by rw [ihm.2 ht, hcm]⟩
          · rw [if_neg hx] at hd
            cases hd
      · intro hn
        rw [hlc] at hn
        cases ht : lastCat NetworkKey xs with
        | some d2 => rw [ht] at hn; cases hn
        | none =>
          rw [ht] at hn
          by_cases hx : GetLeafKeyPath x.Key = NetworkKey
          · rw [if_pos hx] at hn; cases hn
          · rw [ihm.2 ht]
            exact (loadCategoryStep_preserve gdi cfg x cmid hs).2.2 hx

theorem parseDisks_spec (gdi : DiskDecoder) :
    ∀ (l : List EtcdNode) (ds : List DiskConfig), parseDisks gdi l = .ok ds →
      ds.length = l.length ∧
        ∀ (i : Nat) (h1 : i < l.length) (h2 : i < ds.length),
          gdi (l.get ⟨i, h1⟩) = .ok (ds.get ⟨i, h2⟩) := by
  intro l
  induction l with
  | nil =>
    intro ds h
    cases h
    exact ⟨rfl, fun i h1 => absurd h1 (by simp)⟩
  | cons a as ih =>
    intro ds h
    rw [show parseDisks gdi (a :: as) =
        (match gdi a with
         | .error e => .error e
         | .ok d =>
           match parseDisks gdi as with
           | .error e => .error e
           | .ok ds2 => .ok (d :: ds2)) from rfl] at h
    cases hg : gdi a with
    | error e => rw [hg] at h; cases h
    | ok d =>
      rw [hg] at h
      cases hp : parseDisks gdi as with
      | error e => rw [hp] at h; cases h
      | ok ds2 =>
        rw [hp] at h
        cases h
        obtain ⟨hlen, hget⟩ := ih ds2 hp
        refine ⟨by simp [hlen], ?_⟩
        intro i h1 h2
        cases i with
        | zero => exact hg
        | succ j =>
          exact hget j (by simpa using h1) (by simpa using h2)

theorem parseProcessors_spec :
    ∀ (l : List EtcdNode) (ps : List ProcessorConfig), parseProcessors l = .ok ps →
      ps.length = l.length ∧
        ∀ (i : Nat) (h1 : i < l.length) (h2 : i < ps.length),
          parseProcChild (l.get ⟨i, h1⟩) = .ok (ps.get ⟨i, h2⟩) := by
  intro l
  induction l with
  | nil =>
    intro ps h
    cases h
    exact ⟨rfl, fun i h1 => absurd h1 (by simp)⟩
  | cons a as ih =>
    intro ps h
    rw [show parseProcessors (a :: as) =
        (match parseProcChild a with
         | .error e => .error e
         | .ok p =>
           match parseProcessors as with
           | .error e => .error e
           | .ok ps2 => .ok (p :: ps2)) from rfl] at h
    cases hg : parseProcChild a with
    | error e => rw [hg] at h; cases h
    | ok p =>
      rw [hg] at h
      cases hp : parseProcessors as with
      | error e => rw [hp] at h; cases h
      | ok ps2 =>
        rw [hp] at h
        cases h
        obtain ⟨hlen, hget⟩ := ih ps2 hp
        refine ⟨by simp [hlen], ?_⟩
        intro i h1 h2
        cases i with
        | zero => exact hg
        | succ j =>
          exact hget j (by simpa using h1) (by simpa using h2)

theorem parseNetwork_spec :
    ∀ (l : List EtcdNode) (ns : List NetworkConfig), parseNetwork l = .ok ns →
      ns.length = l.length ∧
        ∀ (i : Nat) (h1 : i < l.length) (h2 : i < ns.length),
          parseNetChild (l.get ⟨i, h1⟩) = .ok (ns.get ⟨i, h2⟩) := by
  intro l
  induction l with
  | nil =>
    intro ns h
    cases h
    exact ⟨rfl, fun i h1 => absurd h1 (by simp)⟩
  | cons a as ih =>
    intro ns h
    rw [show parseNetwork (a :: as) =
        (match parseNetChild a with
         | .error e => .error e
         | .ok n =>
           match parseNetwork as with
           | .error e => .error e
           | .ok ns2 => .ok (n :: ns2)) from rfl] at h
    cases hg : parseNetChild a with
    | error e => rw [hg] at h; cases h
    | ok n =>
      rw [hg] at h
      cases hp : parseNetwork as with
      | error e => rw [hp] at h; cases h
      | ok ns2 =>
        rw [hp] at h
        cases h
        obtain ⟨hlen, hget⟩ := ih ns2 hp
        refine ⟨by simp [hlen], ?_⟩
        intro i h1 h2
        cases i with
        | zero => exact hg
        | succ j =>
          exact hget j (by simpa using h1) (by simpa using h2)

theorem loadNodesLoop_cons (gdi : DiskDecoder) (c : EtcdClient) (n : String)
    (rest : List String) (acc : NodeMap) :
    loadNodesLoop gdi c (n :: rest) acc =
      (match c.getRecursive (GetNodeConfigKey n) with
       | .keyNotFound => loadNodesLoop gdi c rest acc
       | .err _ =>
         (match GetIpAddress c n with
          | .error e2 => .error e2
          | .ok ip =>
            loadNodesLoop gdi c rest
              (mapInsert acc n { emptyNodeConfig with IPAddress := ip }))
       | .ok nodeInfo =>
         (match loadHardwareConfig gdi n emptyNodeConfig (some nodeInfo) with
          | .error e2 => .error e2
          | .ok cfg =>
            match GetIpAddress c n with
            | .error e2 => .error e2
            | .ok ip =>
              loadNodesLoop gdi c rest
                (mapInsert acc n { cfg with IPAddress := ip }))) := rfl

theorem loop_ip_entry (gdi : DiskDecoder) (c : EtcdClient) :
    ∀ (l : List String) (acc : NodeMap) (m : NodeMap),
      loadNodesLoop gdi c l acc = .ok m →
      ∀ (k : String) (cfg : NodeConfig), m k = some cfg →
        acc k = some cfg ∨ GetIpAddress c k = .ok cfg.IPAddress := by
  intro l
  induction l with
  | nil =>
    intro acc m h k cfg hk
    cases h
    exact Or.inl hk
  | cons n rest ih =>
    intro acc m h k cfg hk
    rw [loadNodesLoop_cons] at h
    split at h
    · exact ih acc m h k cfg hk
    · split at h
      · cases h
      · next ip hip =>
        rcases ih _ m h k cfg hk with hacc | hgot
        · by_cases hkn : k = n
          · subst hkn
            rw [show mapInsert acc k { emptyNodeConfig with IPAddress := ip } k =
                some { emptyNodeConfig with IPAddress := ip } from by
              simp [mapInsert]] at hacc
            cases hacc
            exact Or.inr hip
          · rw [show mapInsert acc n { emptyNodeConfig with IPAddress := ip } k =
                acc k from by simp [mapInsert, hkn]] at hacc
            exact Or.inl hacc
        · exact Or.inr hgot
    · split at h
      · cases h
      · next cfg0 hd =>
        split at h
        · cases h
        · next ip hip =>
          rcases ih _ m h k cfg hk with hacc | hgot
          · by_cases hkn : k = n
            · subst hkn
              rw [show mapInsert acc k { cfg0 with IPAddress := ip } k =
                  some { cfg0 with IPAddress := ip } from by simp [mapInsert]] at hacc
              cases hacc
              exact Or.inr hip
            · rw [show mapInsert acc n { cfg0 with IPAddress := ip } k =
                  acc k from by simp [mapInsert, hkn]] at hacc
              exact Or.inl hacc
          · exact Or.inr hgot

theorem loop_err_of_ip_err (gdi : DiskDecoder) (c : EtcdClient) (node : String)
    (e : String)
    (hnf : ¬ c.getRecursive (GetNodeConfigKey node) = .keyNotFound)
    (hip : GetIpAddress c node = .error e) :
    ∀ (l : List String) (acc : NodeMap), node ∈ l →
      isErrB (loadNodesLoop gdi c l acc) = true := by
  intro l
  induction l with
  | nil =>
    intro acc hmem
    cases hmem
  | cons n rest ih =>
    intro acc hmem
    rw [loadNodesLoop_cons]
    by_cases hn : node = n
    · subst hn
      split
      · next hf => exact absurd hf hnf
      · next msg hf => rw [hip]; rfl
      · next nodeInfo hf =>
        split
        · rfl
        · rw [hip]; rfl
    · have hrest : node ∈ rest := by
        cases List.mem_cons.mp hmem with
        | inl h2 => exact absurd h2 hn
        | inr h2 => exact h2
      split
      · exact ih acc hrest
      · split
        · rfl
        · exact ih _ hrest
      · split
        · rfl
        · split
          · rfl
          · exact ih _ hrest

theorem loop_entry_stable (gdi : DiskDecoder) (c : EtcdClient) (node : String)
    (msg ip : String)
    (hf : c.getRecursive (GetNodeConfigKey node) = .err msg)
    (hip : GetIpAddress c node = .ok ip) :
    ∀ (l : List String) (acc : NodeMap) (m : NodeMap),
      loadNodesLoop gdi c l acc = .ok m →
      (acc node = some { emptyNodeConfig with IPAddress := ip } ∨ node ∈ l) →
      m node = some { emptyNodeConfig with IPAddress := ip } := by
  intro l
  induction l with
  | nil =>
    intro acc m h hside
    cases h
    cases hside with
    | inl h2 => exact h2
    | inr h2 => cases h2
  | cons n rest ih =>
    intro acc m h hside
    rw [loadNodesLoop_cons] at h
    have hside2 : acc node = some { emptyNodeConfig with IPAddress := ip } ∨
        node = n ∨ node ∈ rest := by
      cases hside with
      | inl h2 => exact Or.inl h2
      | inr h2 =>
        cases List.mem_cons.mp h2 with
        | inl h3 => exact Or.inr (Or.inl h3)
        | inr h3 => exact Or.inr (Or.inr h3)
    by_cases hn : node = n
    · subst hn
      split at h
      · next hfn => rw [hf] at hfn; cases hfn
      · next msg2 hfn =>
        split at h
        · next e2 hip2 => rw [hip] at hip2; cases hip2
        · next ip2 hip2 =>
          rw [hip] at hip2
          cases hip2
          exact ih _ m h (Or.inl (by simp [mapInsert]))
      · next nodeInfo hfn => rw [hf] at hfn; cases hfn
    · split at h
      · exact ih acc m h (hside2.imp_right fun h2 => h2.resolve_left hn)
      · split at h
        · cases h
        · next ip2 hip2 =>
          refine ih _ m h ?_
          cases hside2 with
          | inl h2 =>
            exact Or.inl (by rw [show mapInsert acc n _ node = acc node from by
              simp [mapInsert, hn]]; exact h2)
          | inr h2 => exact Or.inr (h2.resolve_left hn)
      · split at h
        · cases h
        · next cfg0 hd =>
          split at h
          · cases h
          · next ip2 hip2 =>
            refine ih _ m h ?_
            cases hside2 with
            | inl h2 =>
              exact Or.inl (by rw [show mapInsert acc n _ node = acc node from by
                simp [mapInsert, hn]]; exact h2)
            | inr h2 => exact Or.inr (h2.resolve_left hn)

theorem loop_none_stable (gdi : DiskDecoder) (c : EtcdClient) (node : String)
    (hf : c.getRecursive (GetNodeConfigKey node) = .keyNotFound) :
    ∀ (l : List String) (acc : NodeMap) (m : NodeMap),
      loadNodesLoop gdi c l acc = .ok m → acc node = none → m node = none := by
  intro l
  induction l with
  | nil =>
    intro acc m h hacc
    cases h
    exact hacc
  | cons n rest ih =>
    intro acc m h hacc
    rw [loadNodesLoop_cons] at h
    have hn : ∀ v : NodeConfig, mapInsert acc n v node = none → True := fun _ _ => trivial
    split at h
    · exact ih acc m h hacc
    · next msg hfn =>
      split at h
      · cases h
      · next ip hip =>
        have hne : ¬ node = n := fun he => by
          rw [he] at hf
          rw [hf] at hfn
          cases hfn
        refine ih _ m h ?_
        rw [show mapInsert acc n _ node = acc node from by simp [mapInsert, hne]]
        exact hacc
    · next nodeInfo hfn =>
      split at h
      · cases h
      · next cfg0 hd =>
        split at h
        · cases h
        · next ip hip =>
          have hne : ¬ node = n := fun he => by
            rw [he] at hf
            rw [hf] at hfn
            cases hfn
          refine ih _ m h ?_
          rw [show mapInsert acc n _ node = acc node from by simp [mapInsert, hne]]
          exact hacc

theorem loop_filter (gdi : DiskDecoder) (c : EtcdClient) (node : String)
    (hf : c.getRecursive (GetNodeConfigKey node) = .keyNotFound) :
    ∀ (l : List String) (acc : NodeMap),
      loadNodesLoop gdi c l acc =
        loadNodesLoop gdi c (l.filter (fun x => !(x == node))) acc := by
  intro l
  induction l with
  | nil => intro acc; rfl
  | cons n rest ih =>
    intro acc
    by_cases hn : n = node
    · subst hn
      rw [show (n :: rest).filter (fun x => !(x == n)) =
          rest.filter (fun x => !(x == n)) from by simp [List.filter_cons]]
      rw [loadNodesLoop_cons, hf]
      exact ih acc
    · rw [show (n :: rest).filter (fun x => !(x == node)) =
          n :: rest.filter (fun x => !(x == node)) from by
        simp [List.filter_cons, hn]]
      rw [loadNodesLoop_cons, loadNodesLoop_cons]
      split
      · exact ih acc
      · split
        · rfl
        · exact ih _
      · split
        · rfl
        · split
          · rfl
          · exact ih _

theorem loop_decode_ok (gdi : DiskDecoder) (c : EtcdClient) :
    ∀ (l : List String) (acc : NodeMap),
      isErrB (loadNodesLoop gdi c l acc) = false →
      ∀ (node : String) (resp : EtcdResponse), node ∈ l →
        c.getRecursive (GetNodeConfigKey node) = .ok resp →
        isErrB (loadHardwareConfig gdi node emptyNodeConfig (some resp)) = false := by
  intro l
  induction l with
  | nil =>
    intro acc h node resp hmem
    cases hmem
  | cons n rest ih =>
    intro acc h node resp hmem hfn
    rw [loadNodesLoop_cons] at h
    by_cases hn : node = n
    · subst hn
      rw [hfn] at h
      have h2 : isErrB
          (match loadHardwareConfig gdi node emptyNodeConfig (some resp) with
           | .error e2 => (.error e2 : Except String NodeMap)
           | .ok cfg =>
             match GetIpAddress c node with
             | .error e2 => .error e2
             | .ok ip =>
               loadNodesLoop gdi c rest
                 (mapInsert acc node { cfg with IPAddress := ip })) = false := h
      cases hd : loadHardwareConfig gdi node emptyNodeConfig (some resp) with
      | error e =>
        rw [hd] at h2
        simp [isErrB] at h2
      | ok cfg0 => rfl
    · have hrest : node ∈ rest := by
        cases List.mem_cons.mp hmem with
        | inl h2 => exact absurd h2 hn
        | inr h2 => exact h2
      split at h
      · exact ih acc h node resp hrest hfn
      · split at h
        · simp [isErrB] at h
        · exact ih _ h node resp hrest hfn
      · split at h
        · simp [isErrB] at h
        · split at h
          · simp [isErrB] at h
          · exact ih _ h node resp hrest hfn

theorem loadCategoryStep_unknown (gdi : DiskDecoder) (cfg : NodeConfig)
    (x : EtcdNode)
    (h1 : ¬ GetLeafKeyPath x.Key = DisksKey)
    (h2 : ¬ GetLeafKeyPath x.Key = ProcessorsKey)
    (h3 : ¬ GetLeafKeyPath x.Key = MemoryKey)
    (h4 : ¬ GetLeafKeyPath x.Key = NetworkKey)
    (h5 : ¬ GetLeafKeyPath x.Key = IpAddressKey) :
    loadCategoryStep gdi cfg x = .ok cfg := by
  simp only [loadCategoryStep]
  rw [if_neg h1, if_neg h2, if_neg h3, if_neg h4, if_neg h5]

theorem loadCategories_insert_unknown (gdi : DiskDecoder) (nodeId : String)
    (x : EtcdNode)
    (h1 : ¬ GetLeafKeyPath x.Key = DisksKey)
    (h2 : ¬ GetLeafKeyPath x.Key = ProcessorsKey)
    (h3 : ¬ GetLeafKeyPath x.Key = MemoryKey)
    (h4 : ¬ GetLeafKeyPath x.Key = NetworkKey)
    (h5 : ¬ GetLeafKeyPath x.Key = IpAddressKey) :
    ∀ (l1 l2 : List EtcdNode) (cfg : NodeConfig),
      loadCategories gdi nodeId cfg (l1 ++ x :: l2) =
        loadCategories gdi nodeId cfg (l1 ++ l2) := by
  intro l1
  induction l1 with
  | nil =>
    intro l2 cfg
    rw [List.nil_append, List.nil_append]
    rw [show loadCategories gdi nodeId cfg (x :: l2) =
        (match loadCategoryStep gdi cfg x with
         | .error e => .error e
         | .ok cfg2 => loadCategories gdi nodeId cfg2 l2) from rfl]
    rw [loadCategoryStep_unknown gdi cfg x h1 h2 h3 h4 h5]
  | cons y l1 ih =>
    intro l2 cfg
    rw [List.cons_append, List.cons_append]
    rw [show loadCategories gdi nodeId cfg (y :: (l1 ++ x :: l2)) =
        (match loadCategoryStep gdi cfg y with
         | .error e => .error e
         | .ok cfg2 => loadCategories gdi nodeId cfg2 (l1 ++ x :: l2)) from rfl]
    rw [show loadCategories gdi nodeId cfg (y :: (l1 ++ l2)) =
        (match loadCategoryStep gdi cfg y with
         | .error e => .error e
         | .ok cfg2 => loadCategories gdi nodeId cfg2 (l1 ++ l2)) from rfl]
    cases loadCategoryStep gdi cfg y with
    | error e => rfl
    | ok cfg2 => exact ih l2 cfg2

theorem parseProcProperty_unknown (proc : ProcessorConfig) (x : EtcdNode)
    (h1 : ¬ GetLeafKeyPath x.Key = ProcPhysicalIDKey)
    (h2 : ¬ GetLeafKeyPath x.Key = ProcSiblingsKey)
    (h3 : ¬ GetLeafKeyPath x.Key = ProcCoreIDKey)
    (h4 : ¬ GetLeafKeyPath x.Key = ProcNumCoresKey)
    (h5 : ¬ GetLeafKeyPath x.Key = ProcSpeedKey)
    (h6 : ¬ GetLeafKeyPath x.Key = ProcBitsKey) :
    parseProcProperty proc x = .ok proc := by
  simp only [parseProcProperty]
  rw [if_neg h1, if_neg h2, if_neg h3, if_neg h4, if_neg h5, if_neg h6]

theorem parseProcProps_insert (x : EtcdNode)
    (h1 : ¬ GetLeafKeyPath x.Key = ProcPhysicalIDKey)
    (h2 : ¬ GetLeafKeyPath x.Key = ProcSiblingsKey)
    (h3 : ¬ GetLeafKeyPath x.Key = ProcCoreIDKey)
    (h4 : ¬ GetLeafKeyPath x.Key = ProcNumCoresKey)
    (h5 : ¬ GetLeafKeyPath x.Key = ProcSpeedKey)
    (h6 : ¬ GetLeafKeyPath x.Key = ProcBitsKey) :
    ∀ (l1 l2 : List EtcdNode) (proc : ProcessorConfig),
      parseProcProps proc (l1 ++ x :: l2) = parseProcProps proc (l1 ++ l2) := by
  intro l1
  induction l1 with
  | nil =>
    intro l2 proc
    rw [List.nil_append, List.nil_append]
    rw [show parseProcProps proc (x :: l2) =
        (match parseProcProperty proc x with
         | .error e => .error e
         | .ok proc2 => parseProcProps proc2 l2) from rfl]
    rw [parseProcProperty_unknown proc x h1 h2 h3 h4 h5 h6]
  | cons y l1 ih =>
    intro l2 proc
    rw [List.cons_append, List.cons_append]
    rw [show parseProcProps proc (y :: (l1 ++ x :: l2)) =
        (match parseProcProperty proc y with
         | .error e => .error e
         | .ok proc2 => parseProcProps proc2 (l1 ++ x :: l2)) from rfl]
    rw [show parseProcProps proc (y :: (l1 ++ l2)) =
        (match parseProcProperty proc y with
         | .error e => .error e
         | .ok proc2 => parseProcProps proc2 (l1 ++ l2)) from rfl]
    cases parseProcProperty proc y with
    | error e => rfl
    | ok proc2 => exact ih l2 proc2

theorem parseProcessors_insert (x : EtcdNode)
    (h1 : ¬ GetLeafKeyPath x.Key = ProcPhysicalIDKey)
    (h2 : ¬ GetLeafKeyPath x.Key = ProcSiblingsKey)
    (h3 : ¬ GetLeafKeyPath x.Key = ProcCoreIDKey)
    (h4 : ¬ GetLeafKeyPath x.Key = ProcNumCoresKey)
    (h5 : ¬ GetLeafKeyPath x.Key = ProcSpeedKey)
    (h6 : ¬ GetLeafKeyPath x.Key = ProcBitsKey)
    (pk pv : String) (pd : Bool) (l1 l2 : List EtcdNode) :
    ∀ ps1 ps2 : List EtcdNode,
      parseProcessors (ps1 ++ EtcdNode.mk pk pv pd (l1 ++ x :: l2) :: ps2) =
        parseProcessors (ps1 ++ EtcdNode.mk pk pv pd (l1 ++ l2) :: ps2) := by
  have hc : parseProcChild (EtcdNode.mk pk pv pd (l1 ++ x :: l2)) =
      parseProcChild (EtcdNode.mk pk pv pd (l1 ++ l2)) := by
    unfold parseProcChild
    rw [show (EtcdNode.mk pk pv pd (l1 ++ x :: l2)).Key = pk from rfl,
      show (EtcdNode.mk pk pv pd (l1 ++ l2)).Key = pk from rfl,
      show (EtcdNode.mk pk pv pd (l1 ++ x :: l2)).Nodes = l1 ++ x :: l2 from rfl,
      show (EtcdNode.mk pk pv pd (l1 ++ l2)).Nodes = l1 ++ l2 from rfl]
    cases goParseUint 32 (GetLeafKeyPath pk) with
    | error e => rfl
    | ok procID =>
      exact parseProcProps_insert x h1 h2 h3 h4 h5 h6 l1 l2 _
  intro ps1
  induction ps1 with
  | nil =>
    intro ps2
    rw [List.nil_append, List.nil_append]
    rw [show parseProcessors (EtcdNode.mk pk pv pd (l1 ++ x :: l2) :: ps2) =
        (match parseProcChild (EtcdNode.mk pk pv pd (l1 ++ x :: l2)) with
         | .error e => .error e
         | .ok proc =>
           match parseProcessors ps2 with
           | .error e => .error e
           | .ok procs => .ok (proc :: procs)) from rfl]
    rw [show parseProcessors (EtcdNode.mk pk pv pd (l1 ++ l2) :: ps2) =
        (match parseProcChild (EtcdNode.mk pk pv pd (l1 ++ l2)) with
         | .error e => .error e
         | .ok proc =>
           match parseProcessors ps2 with
           | .error e => .error e
           | .ok procs => .ok (proc :: procs)) from rfl]
    rw [hc]
  | cons y ps1 ih =>
    intro ps2
    rw [List.cons_append, List.cons_append]
    rw [show parseProcessors (y :: (ps1 ++ EtcdNode.mk pk pv pd (l1 ++ x :: l2) :: ps2)) =
        (match parseProcChild y with
         | .error e => .error e
         | .ok proc =>
           match parseProcessors (ps1 ++ EtcdNode.mk pk pv pd (l1 ++ x :: l2) :: ps2) with
           | .error e => .error e
           | .ok procs => .ok (proc :: procs)) from rfl]
    rw [show parseProcessors (y :: (ps1 ++ EtcdNode.mk pk pv pd (l1 ++ l2) :: ps2)) =
        (match parseProcChild y with
         | .error e => .error e
         | .ok proc =>
           match parseProcessors (ps1 ++ EtcdNode.mk pk pv pd (l1 ++ l2) :: ps2) with
           | .error e => .error e
           | .ok procs => .ok (proc :: procs)) from rfl]
    rw [ih ps2]

theorem parseMemProps_insert (x : EtcdNode)
    (hx : ¬ GetLeafKeyPath x.Key = MemoryTotalSizeKey) :
    ∀ (l1 l2 : List EtcdNode) (mem : MemoryConfig),
      parseMemProps mem (l1 ++ x :: l2) = parseMemProps mem (l1 ++ l2) := by
  intro l1
  induction l1 with
  | nil =>
    intro l2 mem
    rw [List.nil_append, List.nil_append]
    rw [show parseMemProps mem (x :: l2) =
        (if GetLeafKeyPath x.Key = MemoryTotalSizeKey then
          match goParseUint 64 x.Value with
          | .error e => .error e
          | .ok size => parseMemProps { mem with TotalSize := size } l2
         else parseMemProps mem l2) from rfl]
    rw [if_neg hx]
  | cons y l1 ih =>
    intro l2 mem
    rw [List.cons_append, List.cons_append]
    rw [show parseMemProps mem (y :: (l1 ++ x :: l2)) =
        (if GetLeafKeyPath y.Key = MemoryTotalSizeKey then
          match goParseUint 64 y.Value with
          | .error e => .error e
          | .ok size => parseMemProps { mem with TotalSize := size } (l1 ++ x :: l2)
         else parseMemProps mem (l1 ++ x :: l2)) from rfl]
    rw [show parseMemProps mem (y :: (l1 ++ l2)) =
        (if GetLeafKeyPath y.Key = MemoryTotalSizeKey then
          match goParseUint 64 y.Value with
          | .error e => .error e
          | .ok size => parseMemProps { mem with TotalSize := size } (l1 ++ l2)
         else parseMemProps mem (l1 ++ l2)) from rfl]
    by_cases hy : GetLeafKeyPath y.Key = MemoryTotalSizeKey
    · rw [if_pos hy, if_pos hy]
      cases goParseUint 64 y.Value with
      | error e => rfl
      | ok size => exact ih l2 _
    · rw [if_neg hy, if_neg hy]
      exact ih l2 mem

theorem parseNetProperty_unknown (net : NetworkConfig) (x : EtcdNode)
    (h1 : ¬ GetLeafKeyPath x.Key = NetworkIPv4AddressKey)
    (h2 : ¬ GetLeafKeyPath x.Key = NetworkIPv6AddressKey)
    (h3 : ¬ GetLeafKeyPath x.Key = NetworkSpeedKey) :
    parseNetProperty net x = .ok net := by
  simp only [parseNetProperty]
  rw [if_neg h1, if_neg h2, if_neg h3]

theorem parseNetProps_insert (x : EtcdNode)
    (h1 : ¬ GetLeafKeyPath x.Key = NetworkIPv4AddressKey)
    (h2 : ¬ GetLeafKeyPath x.Key = NetworkIPv6AddressKey)
    (h3 : ¬ GetLeafKeyPath x.Key = NetworkSpeedKey) :
    ∀ (l1 l2 : List EtcdNode) (net : NetworkConfig),
      parseNetProps net (l1 ++ x :: l2) = parseNetProps net (l1 ++ l2) := by
  intro l1
  induction l1 with
  | nil =>
    intro l2 net
    rw [List.nil_append, List.nil_append]
    rw [show parseNetProps net (x :: l2) =
        (match parseNetProperty net x with
         | .error e => .error e
         | .ok net2 => parseNetProps net2 l2) from rfl]
    rw [parseNetProperty_unknown net x h1 h2 h3]
  | cons y l1 ih =>
    intro l2 net
    rw [List.cons_append, List.cons_append]
    rw [show parseNetProps net (y :: (l1 ++ x :: l2)) =
        (match parseNetProperty net y with
         | .error e => .error e
         | .ok net2 => parseNetProps net2 (l1 ++ x :: l2)) from rfl]
    rw [show parseNetProps net (y :: (l1 ++ l2)) =
        (match parseNetProperty net y with
         | .error e => .error e
         | .ok net2 => parseNetProps net2 (l1 ++ l2)) from rfl]
    cases parseNetProperty net y with
    | error e => rfl
    | ok net2 => exact ih l2 net2

theorem parseNetwork_insert (x : EtcdNode)
    (h1 : ¬ GetLeafKeyPath x.Key = NetworkIPv4AddressKey)
    (h2 : ¬ GetLeafKeyPath x.Key = NetworkIPv6AddressKey)
    (h3 : ¬ GetLeafKeyPath x.Key = NetworkSpeedKey)
    (ak av : String) (ad : Bool) (l1 l2 : List EtcdNode) :
    ∀ as1 as2 : List EtcdNode,
      parseNetwork (as1 ++ EtcdNode.mk ak av ad (l1 ++ x :: l2) :: as2) =
        parseNetwork (as1 ++ EtcdNode.mk ak av ad (l1 ++ l2) :: as2) := by
  have hc : parseNetChild (EtcdNode.mk ak av ad (l1 ++ x :: l2)) =
      parseNetChild (EtcdNode.mk ak av ad (l1 ++ l2)) := by
    unfold parseNetChild
    rw [show (EtcdNode.mk ak av ad (l1 ++ x :: l2)).Key = ak from rfl,
      show (EtcdNode.mk ak av ad (l1 ++ l2)).Key = ak from rfl,
      show (EtcdNode.mk ak av ad (l1 ++ x :: l2)).Nodes = l1 ++ x :: l2 from rfl,
      show (EtcdNode.mk ak av ad (l1 ++ l2)).Nodes = l1 ++ l2 from rfl]
    exact parseNetProps_insert x h1 h2 h3 l1 l2 _
  intro as1
  induction as1 with
  | nil =>
    intro as2
    rw [List.nil_append, List.nil_append]
    rw [show parseNetwork (EtcdNode.mk ak av ad (l1 ++ x :: l2) :: as2) =
        (match parseNetChild (EtcdNode.mk ak av ad (l1 ++ x :: l2)) with
         | .error e => .error e
         | .ok net =>
           match parseNetwork as2 with
           | .error e => .error e
           | .ok nets => .ok (net :: nets)) from rfl]
    rw [show parseNetwork (EtcdNode.mk ak av ad (l1 ++ l2) :: as2) =
        (match parseNetChild (EtcdNode.mk ak av ad (l1 ++ l2)) with
         | .error e => .error e
         | .ok net =>
           match parseNetwork as2 with
           | .error e => .error e
           | .ok nets => .ok (net :: nets)) from rfl]
    rw [hc]
  | cons y as1 ih =>
    intro as2
    rw [List.cons_append, List.cons_append]
    rw [show parseNetwork (y :: (as1 ++ EtcdNode.mk ak av ad (l1 ++ x :: l2) :: as2)) =
        (match parseNetChild y with
         | .error e => .error e
         | .ok net =>
           match parseNetwork (as1 ++ EtcdNode.mk ak av ad (l1 ++ x :: l2) :: as2) with
           | .error e => .error e
           | .ok nets => .ok (net :: nets)) from rfl]
    rw [show parseNetwork (y :: (as1 ++ EtcdNode.mk ak av ad (l1 ++ l2) :: as2)) =
        (match parseNetChild y with
         | .error e => .error e
         | .ok net =>
           match parseNetwork (as1 ++ EtcdNode.mk ak av ad (l1 ++ l2) :: as2) with
           | .error e => .error e
           | .ok nets => .ok (net :: nets)) from rfl]
    rw [ih as2]

/-- Claim C10: for every input string, `parseKeyValuePairString` splits on
single spaces, keeps exactly the tokens splitting on the equals sign into
exactly two parts, maps the part before the sign to the part after it with
every double-quote removed, and later pairs for the same key overwrite
earlier ones (`specKVLookup` is that description, read off the claim). -/
theorem C10_parseKeyValuePairString_spec (s k : String) :
    parseKeyValuePairString s k = specKVLookup k (goSplit ' ' s) := by
  rw [parseKeyValuePairString, kvFold_lookup]
  cases specKVLookup k (goSplit ' ' s) <;> rfl

/-- Claim C5 counterexample: a response whose root node is present but has
no children decodes successfully (to the unchanged config), whereas the
claim asserts every such call returns an error. -/
theorem C5_counterexample :
    loadHardwareConfig gdiK "n" emptyNodeConfig
        (some { Node := some (EtcdNode.mk "node" "" true []) }) =
      .ok emptyNodeConfig := rfl

/-- Claim C5 (amended): `loadHardwareConfig` fails exactly when the
response or its root node is absent; a present root with no children
decodes successfully, returning the configuration unchanged. -/
theorem C5_missing_data :
    (∀ (gdi : DiskDecoder) (nodeId : String) (cfg : NodeConfig),
      loadHardwareConfig gdi nodeId cfg none = .error "hardware info missing")
    ∧ (∀ (gdi : DiskDecoder) (nodeId : String) (cfg : NodeConfig),
      loadHardwareConfig gdi nodeId cfg (some { Node := none }) =
        .error "hardware info missing")
    ∧ (∀ (gdi : DiskDecoder) (nodeId : String) (cfg : NodeConfig)
        (k v : String) (d : Bool),
      loadHardwareConfig gdi nodeId cfg
          (some { Node := some (EtcdNode.mk k v d []) }) = .ok cfg) :=
  ⟨fun _ _ _ => rfl, fun _ _ _ => rfl, fun _ _ _ _ _ _ => rfl⟩

/-- Claim C6: a subtree whose `ipaddress` child has the directory flag set
always fails to decode, whatever the children of that directory are; a
plain-leaf `ipaddress` child copies its value into `IPAddress` without
error. -/
theorem C6_ipaddress_dir (gdi : DiskDecoder) (nodeId : String)
    (cfg : NodeConfig) (k v : String) (d : Bool) (child : EtcdNode)
    (hleaf : GetLeafKeyPath child.Key = IpAddressKey) :
    (child.Dir = true →
      loadHardwareConfig gdi nodeId cfg
          (some { Node := some (EtcdNode.mk k v d [child]) }) =
        .error ("IP address node " ++ child.Key ++
          " is a directory, but it is expected to be a key"))
    ∧ (child.Dir = false →
      loadHardwareConfig gdi nodeId cfg
          (some { Node := some (EtcdNode.mk k v d [child]) }) =
        .ok { cfg with IPAddress := child.Value }) := by
  have hstep : loadCategoryStep gdi cfg child = loadIPAddressConfig cfg child := by
    simp only [loadCategoryStep]
    rw [hleaf]
    rw [if_neg (by decide : ¬ (IpAddressKey = DisksKey)),
      if_neg (by decide : ¬ (IpAddressKey = ProcessorsKey)),
      if_neg (by decide : ¬ (IpAddressKey = MemoryKey)),
      if_neg (by decide : ¬ (IpAddressKey = NetworkKey)), if_pos rfl]
  have hunf : loadHardwareConfig gdi nodeId cfg
      (some { Node := some (EtcdNode.mk k v d [child]) }) =
      (match loadCategoryStep gdi cfg child with
       | .error e => .error e
       | .ok cfg2 => loadCategories gdi nodeId cfg2 []) := rfl
  constructor
  · intro hdir
    rw [hunf, hstep]
    rw [show loadIPAddressConfig cfg child =
        (if child.Dir then
          .error ("IP address node " ++ child.Key ++
            " is a directory, but it is expected to be a key")
         else .ok { cfg with IPAddress := child.Value }) from rfl]
    rw [hdir]
    rfl
  · intro hdir
    rw [hunf, hstep]
    rw [show loadIPAddressConfig cfg child =
        (if child.Dir then
          .error ("IP address node " ++ child.Key ++
            " is a directory, but it is expected to be a key")
         else .ok { cfg with IPAddress := child.Value }) from rfl]
    rw [hdir]
    rfl

/-- Claim C6 witness: the two branches of `C6_ipaddress_dir` evaluated at a
concrete directory-shaped and a concrete leaf-shaped `ipaddress` child. -/
theorem C6_ipaddress_dir_witness :
    loadHardwareConfig gdiK "a" emptyNodeConfig
        (some { Node := some (EtcdNode.mk "a" "" true
          [EtcdNode.mk "/castle/discovered/nodes/a/ipaddress" "" true
            [EtcdNode.mk "x" "1.2.3.4" false []]]) }) =
      .error ("IP address node /castle/discovered/nodes/a/ipaddress" ++
        " is a directory, but it is expected to be a key")
    ∧ loadHardwareConfig gdiK "a" emptyNodeConfig
        (some { Node := some (EtcdNode.mk "a" "" true
          [EtcdNode.mk "/castle/discovered/nodes/a/ipaddress" "10.0.0.9" false []]) }) =
      .ok { emptyNodeConfig with IPAddress := "10.0.0.9" } := by
  constructor
  · exact (C6_ipaddress_dir gdiK "a" emptyNodeConfig "a" "" true
      (EtcdNode.mk "/castle/discovered/nodes/a/ipaddress" "" true
        [EtcdNode.mk "x" "1.2.3.4" false []]) (by decide)).1 rfl
  · exact (C6_ipaddress_dir gdiK "a" emptyNodeConfig "a" "" true
      (EtcdNode.mk "/castle/discovered/nodes/a/ipaddress" "10.0.0.9" false [])
      (by decide)).2 rfl

theorem loadNodeConfig_unfold (gdi : DiskDecoder) (c : EtcdClient) :
    loadNodeConfig gdi c =
      (match c.listChildren with
       | .error e => .error e
       | .ok nodes => loadNodesLoop gdi c nodes (fun _ => none)) := rfl

theorem lookupLoaded_unfold (gdi : DiskDecoder) (c : EtcdClient) (k : String) :
    lookupLoaded gdi c k =
      (match loadNodeConfig gdi c with
       | .error _ => none
       | .ok m => some (m k)) := rfl

/-- Claim C1 (amended): when a listed node's recursive fetch fails with a
non-not-found error, the decode is skipped but the node is not dropped: its
IP address is still fetched, a failure there aborting the whole load, and
on success the node appears in the mapping as an empty hardware config
carrying that IP address; the loop then continues. -/
theorem C1_fetch_error_keeps_node (gdi : DiskDecoder) (c : EtcdClient)
    (nodes : List String) (node msg : String)
    (hl : c.listChildren = .ok nodes) (hmem : node ∈ nodes)
    (hf : c.getRecursive (GetNodeConfigKey node) = .err msg) :
    (∀ e, GetIpAddress c node = .error e →
      isErrB (loadNodeConfig gdi c) = true)
    ∧ (∀ ip, GetIpAddress c node = .ok ip →
        isErrB (loadNodeConfig gdi c) = false →
        lookupLoaded gdi c node =
          some (some { emptyNodeConfig with IPAddress := ip })) := by
  constructor
  · intro e hip
    rw [loadNodeConfig_unfold, hl]
    exact loop_err_of_ip_err gdi c node e
      (by rw [hf]; exact fun hcon => GetResult.noConfusion hcon) hip nodes _ hmem
  · intro ip hip hok
    cases hres : loadNodeConfig gdi c with
    | error e =>
      rw [hres] at hok
      simp [isErrB] at hok
    | ok m =>
      have hloop : loadNodesLoop gdi c nodes (fun _ => none) = .ok m := by
        rw [loadNodeConfig_unfold, hl] at hres
        exact hres
      rw [lookupLoaded_unfold, hres]
      show some (m node) = some (some { emptyNodeConfig with IPAddress := ip })
      rw [loop_entry_stable gdi c node msg ip hf hip nodes (fun _ => none) m hloop
        (Or.inr hmem)]

/-- Claim C1 counterexample: a node whose recursive fetch fails with a
non-not-found error is not skipped — with the IP read succeeding, the load
succeeds and the node does get an entry in the returned mapping,
contradicting "no entry for that node appears". -/
theorem C1_counterexample :
    clientFetchErr.getRecursive (GetNodeConfigKey "a") = .err "boom"
    ∧ lookupLoaded gdiK clientFetchErr "a" =
        some (some { emptyNodeConfig with IPAddress := "1.2.3.4" }) :=
  ⟨rfl, by decide⟩

/-- Claim C1 witness: both branches of `C1_fetch_error_keeps_node` at
concrete clients — an IP-read failure aborts the load, an IP-read success
stores the empty-hardware entry. -/
theorem C1_witness :
    isErrB (loadNodeConfig gdiK clientFetchErrIpErr) = true
    ∧ lookupLoaded gdiK clientFetchErr "a" =
        some (some { emptyNodeConfig with IPAddress := "1.2.3.4" }) := by
  constructor
  · exact (C1_fetch_error_keeps_node gdiK clientFetchErrIpErr ["a"] "a" "boom"
      rfl (by decide) rfl).1 "ipboom" rfl
  · exact (C1_fetch_error_keeps_node gdiK clientFetchErr ["a"] "a" "boom"
      rfl (by decide) rfl).2 "1.2.3.4" rfl (by decide)

/-- Claim C2 (amended): every entry of a successful bulk load carries as
its `IPAddress` exactly the `GetIpAddress` result for that node
(overwriting anything the subtree decode produced), and for every listed
node whose fetch did not return key-not-found, a failing IP read aborts
the whole load.  Nodes whose fetch returns key-not-found are skipped with
no IP read, and a decode error aborts before the IP read. -/
theorem C2_ip_overwrite_and_abort :
    (∀ (gdi : DiskDecoder) (c : EtcdClient) (node : String) (cfg : NodeConfig),
      lookupLoaded gdi c node = some (some cfg) →
      GetIpAddress c node = .ok cfg.IPAddress)
    ∧ (∀ (gdi : DiskDecoder) (c : EtcdClient) (nodes : List String)
        (node e : String),
      c.listChildren = .ok nodes → node ∈ nodes →
      ¬ c.getRecursive (GetNodeConfigKey node) = .keyNotFound →
      GetIpAddress c node = .error e →
      isErrB (loadNodeConfig gdi c) = true) := by
  constructor
  · intro gdi c node cfg hl
    rw [lookupLoaded_unfold] at hl
    cases hres : loadNodeConfig gdi c with
    | error e => rw [hres] at hl; cases hl
    | ok m =>
      rw [hres] at hl
      have hl2 : m node = some cfg := Option.some.inj hl
      cases hlc : c.listChildren with
      | error e2 =>
        rw [loadNodeConfig_unfold, hlc] at hres
        cases hres
      | ok ns =>
        have hloop : loadNodesLoop gdi c ns (fun _ => none) = .ok m := by
          rw [loadNodeConfig_unfold, hlc] at hres
          exact hres
        rcases loop_ip_entry gdi c ns _ m hloop node cfg hl2 with hacc | hgot
        · cases hacc
        · exact hgot
  · intro gdi c nodes node e hl hmem hnf hip
    rw [loadNodeConfig_unfold, hl]
    exact loop_err_of_ip_err gdi c node e hnf hip nodes _ hmem

/-- Claim C2 counterexample: node `a` is in the listing, its IP read fails,
yet the bulk load succeeds (with no entry for `a`), because a not-found
fetch skips the node before any IP read — contradicting "for every node id
in the listing ... any failure of that IP fetch aborts the entire bulk
load". -/
theorem C2_counterexample :
    clientNotFoundIpErr.listChildren = .ok ["a"]
    ∧ clientNotFoundIpErr.getRecursive (GetNodeConfigKey "a") = .keyNotFound
    ∧ GetIpAddress clientNotFoundIpErr "a" = .error "ipboom"
    ∧ lookupLoaded gdiK clientNotFoundIpErr "a" = some none :=
  ⟨rfl, rfl, rfl, by decide⟩

/-- Claim C2 witness: `C2_ip_overwrite_and_abort` at concrete clients — a
successfully loaded node's entry carries the `GetIpAddress` result, and an
IP-read failure on a fetch-errored node aborts the load. -/
theorem C2_witness :
    GetIpAddress clientValidK "a" = .ok cfgValidK.IPAddress
    ∧ isErrB (loadNodeConfig gdiK clientFetchErrIpErr) = true := by
  constructor
  · exact C2_ip_overwrite_and_abort.1 gdiK clientValidK "a" cfgValidK (by decide)
  · exact C2_ip_overwrite_and_abort.2 gdiK clientFetchErrIpErr ["a"] "a" "ipboom"
      rfl (by decide) (fun hcon => GetResult.noConfusion hcon) rfl

/-- Claim C9: a listed node whose recursive fetch fails with the store's
key-not-found error is skipped: the loop behaves exactly as if every
occurrence of that node id were absent from the listing, the node
contributes no entry to a successful result, and the load can still
succeed. -/
theorem C9_notfound_skips (gdi : DiskDecoder) (c : EtcdClient) (node : String)
    (hf : c.getRecursive (GetNodeConfigKey node) = .keyNotFound) :
    (∀ (l : List String) (acc : NodeMap),
      loadNodesLoop gdi c l acc =
        loadNodesLoop gdi c (l.filter (fun x => !(x == node))) acc)
    ∧ (isErrB (loadNodeConfig gdi c) = false →
        lookupLoaded gdi c node = some none) := by
  constructor
  · exact loop_filter gdi c node hf
  · intro hok
    cases hres : loadNodeConfig gdi c with
    | error e =>
      rw [hres] at hok
      simp [isErrB] at hok
    | ok m =>
      rw [lookupLoaded_unfold, hres]
      cases hlc : c.listChildren with
      | error e2 =>
        rw [loadNodeConfig_unfold, hlc] at hres
        cases hres
      | ok ns =>
        have hloop : loadNodesLoop gdi c ns (fun _ => none) = .ok m := by
          rw [loadNodeConfig_unfold, hlc] at hres
          exact hres
        show some (m node) = some none
        rw [loop_none_stable gdi c node hf ns _ m hloop rfl]

/-- Claim C9 witness: `C9_notfound_skips` at a concrete client — skipping
node `a` equals loading the listing with `a` filtered out, `a` has no
entry, and the load still succeeds. -/
theorem C9_witness :
    loadNodesLoop gdiK clientSkipK ["a", "b"] (fun _ => none) =
      loadNodesLoop gdiK clientSkipK ["b"] (fun _ => none)
    ∧ lookupLoaded gdiK clientSkipK "a" = some none := by
  have h := C9_notfound_skips gdiK clientSkipK "a" rfl
  constructor
  · have h1 := h.1 ["a", "b"] (fun _ => none)
    rw [show (["a", "b"].filter (fun x => !(x == "a"))) = ["b"] from by decide] at h1
    exact h1
  · exact h.2 (by decide)

theorem parseNetProps_speed_empty :
    ∀ (l : List EtcdNode) (net : NetworkConfig),
      (∀ q ∈ l, GetLeafKeyPath q.Key = NetworkSpeedKey → q.Value = "") →
      net.Speed = 0 →
      ∃ net2, parseNetProps net l = .ok net2 ∧ net2.Speed = 0 := by
  intro l
  induction l with
  | nil =>
    intro net hall hs
    exact ⟨net, rfl, hs⟩
  | cons q qs ih =>
    intro net hall hs
    have hstep : ∃ net2, parseNetProperty net q = .ok net2 ∧ net2.Speed = 0 := by
      simp only [parseNetProperty]
      by_cases h1 : GetLeafKeyPath q.Key = NetworkIPv4AddressKey
      · rw [if_pos h1]
        exact ⟨_, rfl, hs⟩
      · rw [if_neg h1]
        by_cases h2 : GetLeafKeyPath q.Key = NetworkIPv6AddressKey
        · rw [if_pos h2]
          exact ⟨_, rfl, hs⟩
        · rw [if_neg h2]
          by_cases h3 : GetLeafKeyPath q.Key = NetworkSpeedKey
          · rw [if_pos h3, hall q (List.mem_cons_self q qs) h3, if_pos rfl]
            exact ⟨_, rfl, rfl⟩
          · rw [if_neg h3]
            exact ⟨net, rfl, hs⟩
    obtain ⟨net2, hnp, hs2⟩ := hstep
    rw [show parseNetProps net (q :: qs) =
        (match parseNetProperty net q with
         | .error e => .error e
         | .ok n2 => parseNetProps n2 qs) from rfl, hnp]
    exact ih net2 (fun r hr hname => hall r (List.mem_cons_of_mem q hr) hname) hs2

/-- Claim C3: a malformed recognized leaf (processor ordinal or processor
property failing its unsigned/float parse, memory `totalsize` failing the
unsigned parse, or a non-empty network `speed` failing the unsigned parse)
makes `loadHardwareConfig` return an error; a successful bulk load implies
every fetched listed node decoded without error (so no partially converted
`NodeConfig` is ever returned); and a decode error at a reached node makes
the loop return exactly that error. -/
theorem C3_malformed_leaf_fatal :
    (∀ (gdi : DiskDecoder) (nodeId : String) (cfg : NodeConfig) (root : EtcdNode),
      specMalformedLeaf root = true →
      isErrB (loadHardwareConfig gdi nodeId cfg (some { Node := some root })) = true)
    ∧ (∀ (gdi : DiskDecoder) (c : EtcdClient) (nodes : List String)
        (node : String) (resp : EtcdResponse),
      isErrB (loadNodeConfig gdi c) = false →
      c.listChildren = .ok nodes → node ∈ nodes →
      c.getRecursive (GetNodeConfigKey node) = .ok resp →
      isErrB (loadHardwareConfig gdi node emptyNodeConfig (some resp)) = false)
    ∧ (∀ (gdi : DiskDecoder) (c : EtcdClient) (node : String)
        (rest : List String) (acc : NodeMap) (resp : EtcdResponse) (e : String),
      c.getRecursive (GetNodeConfigKey node) = .ok resp →
      loadHardwareConfig gdi node emptyNodeConfig (some resp) = .error e →
      loadNodesLoop gdi c (node :: rest) acc = .error e) := by
  refine ⟨?_, ?_, ?_⟩
  · intro gdi nodeId cfg root hm
    rw [show loadHardwareConfig gdi nodeId cfg (some { Node := some root }) =
        loadCategories gdi nodeId cfg root.Nodes from rfl]
    rw [loadCategories_err]
    obtain ⟨cat, hcmem, hcat⟩ := List.any_eq_true.mp hm
    apply List.any_eq_true.mpr
    refine ⟨cat, hcmem, ?_⟩
    have hc0 : (if GetLeafKeyPath cat.Key = ProcessorsKey then
        cat.Nodes.any (fun p =>
          isErrB (goParseUint 32 (GetLeafKeyPath p.Key)) || p.Nodes.any procPropErrB)
      else if GetLeafKeyPath cat.Key = MemoryKey then cat.Nodes.any memPropErrB
      else if GetLeafKeyPath cat.Key = NetworkKey then
        cat.Nodes.any (fun a => a.Nodes.any netPropErrB)
      else false) = true := hcat
    by_cases hp : GetLeafKeyPath cat.Key = ProcessorsKey
    · rw [if_pos hp] at hc0
      simp only [catError]
      rw [hp, if_neg (by decide : ¬ (ProcessorsKey = DisksKey)), if_pos rfl]
      rw [parseProcessors_err]
      simp only [parseProcChild_err]
      exact hc0
    · rw [if_neg hp] at hc0
      by_cases hm2 : GetLeafKeyPath cat.Key = MemoryKey
      · rw [if_pos hm2] at hc0
        simp only [catError]
        rw [hm2, if_neg (by decide : ¬ (MemoryKey = DisksKey)),
          if_neg (by decide : ¬ (MemoryKey = ProcessorsKey)), if_pos rfl]
        rw [parseMemProps_err]
        exact hc0
      · rw [if_neg hm2] at hc0
        by_cases hn : GetLeafKeyPath cat.Key = NetworkKey
        · rw [if_pos hn] at hc0
          simp only [catError]
          rw [hn, if_neg (by decide : ¬ (NetworkKey = DisksKey)),
            if_neg (by decide : ¬ (NetworkKey = ProcessorsKey)),
            if_neg (by decide : ¬ (NetworkKey = MemoryKey)), if_pos rfl]
          rw [parseNetwork_err]
          simp only [parseNetChild_err]
          exact hc0
        · rw [if_neg hn] at hc0
          cases hc0
  · intro gdi c nodes node resp hok hl hmem hf
    rw [loadNodeConfig_unfold, hl] at hok
    exact loop_decode_ok gdi c nodes _ hok node resp hmem hf
  · intro gdi c node rest acc resp e hf hd
    rw [loadNodesLoop_cons, hf]
    show (match loadHardwareConfig gdi node emptyNodeConfig (some resp) with
      | .error e2 => (Except.error e2 : Except String NodeMap)
      | .ok cfg =>
        match GetIpAddress c node with
        | .error e2 => .error e2
        | .ok ip =>
          loadNodesLoop gdi c rest
            (mapInsert acc node { cfg with IPAddress := ip })) = .error e
    rw [hd]

set_option exponentiation.threshold 1100 in
set_option maxRecDepth 8000 in
/-- Claim C3 witness: the parts of `C3_malformed_leaf_fatal` at concrete
inputs — a malformed `totalsize` makes the decode fail, the valid client's
successful load has its fetched node decoding cleanly, the loop propagates
the parse error verbatim, and an out-of-range processor `speed` literal
(`1e309`, a `strconv.ParseFloat` range error) is also fatal. -/
theorem C3_witness :
    isErrB (loadHardwareConfig gdiK "a" emptyNodeConfig
        (some { Node := some rootBadMemK })) = true
    ∧ isErrB (loadHardwareConfig gdiK "a" emptyNodeConfig
        (some { Node := some rootValidK })) = false
    ∧ loadNodesLoop gdiK clientBadMemK ["a"] (fun _ => none) =
        .error "invalid syntax"
    ∧ isErrB (loadHardwareConfig gdiK "a" emptyNodeConfig
        (some { Node := some rootRangeSpeedK })) = true := by
  refine ⟨?_, ?_, ?_, ?_⟩
  · exact C3_malformed_leaf_fatal.1 gdiK "a" emptyNodeConfig rootBadMemK (by decide)
  · exact C3_malformed_leaf_fatal.2.1 gdiK clientValidK ["a"] "a"
      { Node := some rootValidK } (by decide) rfl (by decide) rfl
  · exact C3_malformed_leaf_fatal.2.2 gdiK clientBadMemK "a" [] (fun _ => none)
      { Node := some rootBadMemK } "invalid syntax" rfl rfl
  · exact C3_malformed_leaf_fatal.1 gdiK "a" emptyNodeConfig rootRangeSpeedK
      (by decide)

/-- Claim C4: an empty-string `speed` value on a network adapter decodes to
`Speed = 0` without error (whatever the other adapter properties are),
while an empty-string processor `speed` property or memory `totalsize`
property reaches the generic numeric parser and aborts the node's decode
with a parse error. -/
theorem C4_empty_speed (ak av : String) (ad : Bool) (props : List EtcdNode)
    (hall : ∀ q ∈ props, GetLeafKeyPath q.Key = NetworkSpeedKey → q.Value = "")
    (gdi : DiskDecoder) (nodeId : String) (cfg : NodeConfig)
    (root cpuNode procInfo q : EtcdNode)
    (hcmem : cpuNode ∈ root.Nodes)
    (hcleaf : GetLeafKeyPath cpuNode.Key = ProcessorsKey)
    (hpmem : procInfo ∈ cpuNode.Nodes) (hqmem : q ∈ procInfo.Nodes)
    (hqleaf : GetLeafKeyPath q.Key = ProcSpeedKey) (hqval : q.Value = "")
    (root2 memNode q2 : EtcdNode)
    (hmmem : memNode ∈ root2.Nodes)
    (hmleaf : GetLeafKeyPath memNode.Key = MemoryKey)
    (hq2mem : q2 ∈ memNode.Nodes)
    (hq2leaf : GetLeafKeyPath q2.Key = MemoryTotalSizeKey)
    (hq2val : q2.Value = "") :
    (∃ net2, parseNetChild (EtcdNode.mk ak av ad props) = .ok net2 ∧
      net2.Speed = 0)
    ∧ isErrB (loadHardwareConfig gdi nodeId cfg (some { Node := some root })) = true
    ∧ isErrB (loadHardwareConfig gdi nodeId cfg (some { Node := some root2 })) = true := by
  refine ⟨?_, ?_, ?_⟩
  · exact parseNetProps_speed_empty props _
      (by
        intro r hr hname
        exact hall r hr hname) rfl
  · rw [show loadHardwareConfig gdi nodeId cfg (some { Node := some root }) =
        loadCategories gdi nodeId cfg root.Nodes from rfl]
    rw [loadCategories_err]
    apply List.any_eq_true.mpr
    refine ⟨cpuNode, hcmem, ?_⟩
    simp only [catError]
    rw [hcleaf, if_neg (by decide : ¬ (ProcessorsKey = DisksKey)), if_pos rfl]
    rw [parseProcessors_err]
    simp only [parseProcChild_err]
    apply List.any_eq_true.mpr
    refine ⟨procInfo, hpmem, ?_⟩
    rw [Bool.or_eq_true]
    right
    apply List.any_eq_true.mpr
    refine ⟨q, hqmem, ?_⟩
    simp only [procPropErrB]
    rw [hqleaf, if_neg (by decide : ¬ (ProcSpeedKey = ProcPhysicalIDKey)),
      if_neg (by decide : ¬ (ProcSpeedKey = ProcSiblingsKey)),
      if_neg (by decide : ¬ (ProcSpeedKey = ProcCoreIDKey)),
      if_neg (by decide : ¬ (ProcSpeedKey = ProcNumCoresKey)), if_pos rfl, hqval]
    decide
  · rw [show loadHardwareConfig gdi nodeId cfg (some { Node := some root2 }) =
        loadCategories gdi nodeId cfg root2.Nodes from rfl]
    rw [loadCategories_err]
    apply List.any_eq_true.mpr
    refine ⟨memNode, hmmem, ?_⟩
    simp only [catError]
    rw [hmleaf, if_neg (by decide : ¬ (MemoryKey = DisksKey)),
      if_neg (by decide : ¬ (MemoryKey = ProcessorsKey)), if_pos rfl]
    rw [parseMemProps_err]
    apply List.any_eq_true.mpr
    refine ⟨q2, hq2mem, ?_⟩
    simp only [memPropErrB]
    rw [hq2leaf, hq2val]
    decide

/-- Claim C4 witness: `C4_empty_speed` at concrete subtrees — an adapter
whose only property is an empty `speed` decodes to zero, and the
empty-speed processor subtree and empty-totalsize memory subtree both fail
to decode. -/
theorem C4_empty_speed_witness :
    (∃ net2, parseNetChild (EtcdNode.mk "/castle/discovered/nodes/a/net/eth0" "" true
        [EtcdNode.mk "/castle/discovered/nodes/a/net/eth0/speed" "" false []]) =
      .ok net2 ∧ net2.Speed = 0)
    ∧ isErrB (loadHardwareConfig gdiK "a" emptyNodeConfig
        (some { Node := some rootEmptySpeedK })) = true
    ∧ isErrB (loadHardwareConfig gdiK "a" emptyNodeConfig
        (some { Node := some rootEmptyTotalK })) = true := by
  exact C4_empty_speed "/castle/discovered/nodes/a/net/eth0" "" true
    [EtcdNode.mk "/castle/discovered/nodes/a/net/eth0/speed" "" false []]
    (by decide) gdiK "a" emptyNodeConfig
    rootEmptySpeedK
    (EtcdNode.mk "/castle/discovered/nodes/a/cpu" "" true
      [EtcdNode.mk "/castle/discovered/nodes/a/cpu/0" "" true
        [EtcdNode.mk "/castle/discovered/nodes/a/cpu/0/speed" "" false []]])
    (EtcdNode.mk "/castle/discovered/nodes/a/cpu/0" "" true
      [EtcdNode.mk "/castle/discovered/nodes/a/cpu/0/speed" "" false []])
    (EtcdNode.mk "/castle/discovered/nodes/a/cpu/0/speed" "" false [])
    (by exact List.Mem.head _) (by decide) (by exact List.Mem.head _)
    (by exact List.Mem.head _) (by decide) rfl
    rootEmptyTotalK
    (EtcdNode.mk "/castle/discovered/nodes/a/mem" "" true
      [EtcdNode.mk "/castle/discovered/nodes/a/mem/totalsize" "" false []])
    (EtcdNode.mk "/castle/discovered/nodes/a/mem/totalsize" "" false [])
    (by exact List.Mem.head _) (by decide) (by exact List.Mem.head _)
    (by decide) rfl

/-- Claim C7: adding a child with an unrecognized category name at the top
level, or an unrecognized property name under a processor entry, the
memory category, or a network adapter, never changes the decode result of
the recognized siblings and never produces an error — the decode of the
tree with the extra child equals the decode without it. -/
theorem C7_unknown_names_ignored (gdi : DiskDecoder) (nodeId : String)
    (cfg : NodeConfig)
    (x1 : EtcdNode) (l1 l2 : List EtcdNode) (rk rv : String) (rd : Bool)
    (ha1 : ¬ GetLeafKeyPath x1.Key = DisksKey)
    (ha2 : ¬ GetLeafKeyPath x1.Key = ProcessorsKey)
    (ha3 : ¬ GetLeafKeyPath x1.Key = MemoryKey)
    (ha4 : ¬ GetLeafKeyPath x1.Key = NetworkKey)
    (ha5 : ¬ GetLeafKeyPath x1.Key = IpAddressKey)
    (x2 : EtcdNode) (ck cv pk pv : String) (cd pd : Bool)
    (ps1 ps2 m1 m2 : List EtcdNode)
    (hb1 : ¬ GetLeafKeyPath x2.Key = ProcPhysicalIDKey)
    (hb2 : ¬ GetLeafKeyPath x2.Key = ProcSiblingsKey)
    (hb3 : ¬ GetLeafKeyPath x2.Key = ProcCoreIDKey)
    (hb4 : ¬ GetLeafKeyPath x2.Key = ProcNumCoresKey)
    (hb5 : ¬ GetLeafKeyPath x2.Key = ProcSpeedKey)
    (hb6 : ¬ GetLeafKeyPath x2.Key = ProcBitsKey)
    (x3 : EtcdNode) (km vm : String) (dm : Bool) (mm1 mm2 : List EtcdNode)
    (hc1 : ¬ GetLeafKeyPath x3.Key = MemoryTotalSizeKey)
    (x4 : EtcdNode) (nk nv ak av : String) (nd ad : Bool)
    (as1 as2 nn1 nn2 : List EtcdNode)
    (he1 : ¬ GetLeafKeyPath x4.Key = NetworkIPv4AddressKey)
    (he2 : ¬ GetLeafKeyPath x4.Key = NetworkIPv6AddressKey)
    (he3 : ¬ GetLeafKeyPath x4.Key = NetworkSpeedKey) :
    loadHardwareConfig gdi nodeId cfg
        (some { Node := some (EtcdNode.mk rk rv rd (l1 ++ x1 :: l2)) }) =
      loadHardwareConfig gdi nodeId cfg
        (some { Node := some (EtcdNode.mk rk rv rd (l1 ++ l2)) })
    ∧ loadProcessorsConfig cfg
        (EtcdNode.mk ck cv cd (ps1 ++ EtcdNode.mk pk pv pd (m1 ++ x2 :: m2) :: ps2)) =
      loadProcessorsConfig cfg
        (EtcdNode.mk ck cv cd (ps1 ++ EtcdNode.mk pk pv pd (m1 ++ m2) :: ps2))
    ∧ loadMemoryConfig cfg (EtcdNode.mk km vm dm (mm1 ++ x3 :: mm2)) =
      loadMemoryConfig cfg (EtcdNode.mk km vm dm (mm1 ++ mm2))
    ∧ loadNetworkConfig cfg
        (EtcdNode.mk nk nv nd (as1 ++ EtcdNode.mk ak av ad (nn1 ++ x4 :: nn2) :: as2)) =
      loadNetworkConfig cfg
        (EtcdNode.mk nk nv nd (as1 ++ EtcdNode.mk ak av ad (nn1 ++ nn2) :: as2)) := by
  refine ⟨?_, ?_, ?_, ?_⟩
  · show loadCategories gdi nodeId cfg (l1 ++ x1 :: l2) =
      loadCategories gdi nodeId cfg (l1 ++ l2)
    exact loadCategories_insert_unknown gdi nodeId x1 ha1 ha2 ha3 ha4 ha5 l1 l2 cfg
  · have hpp := parseProcessors_insert x2 hb1 hb2 hb3 hb4 hb5 hb6 pk pv pd m1 m2 ps1 ps2
    simp only [loadProcessorsConfig]
    rw [show (EtcdNode.mk ck cv cd
        (ps1 ++ EtcdNode.mk pk pv pd (m1 ++ x2 :: m2) :: ps2)).Nodes =
        ps1 ++ EtcdNode.mk pk pv pd (m1 ++ x2 :: m2) :: ps2 from rfl,
      show (EtcdNode.mk ck cv cd
        (ps1 ++ EtcdNode.mk pk pv pd (m1 ++ m2) :: ps2)).Nodes =
        ps1 ++ EtcdNode.mk pk pv pd (m1 ++ m2) :: ps2 from rfl, hpp]
  · have hmp := parseMemProps_insert x3 hc1 mm1 mm2 { TotalSize := 0 }
    simp only [loadMemoryConfig]
    rw [show (EtcdNode.mk km vm dm (mm1 ++ x3 :: mm2)).Nodes = mm1 ++ x3 :: mm2 from rfl,
      show (EtcdNode.mk km vm dm (mm1 ++ mm2)).Nodes = mm1 ++ mm2 from rfl, hmp]
  · have hnp := parseNetwork_insert x4 he1 he2 he3 ak av ad nn1 nn2 as1 as2
    simp only [loadNetworkConfig]
    rw [show (EtcdNode.mk nk nv nd
        (as1 ++ EtcdNode.mk ak av ad (nn1 ++ x4 :: nn2) :: as2)).Nodes =
        as1 ++ EtcdNode.mk ak av ad (nn1 ++ x4 :: nn2) :: as2 from rfl,
      show (EtcdNode.mk nk nv nd
        (as1 ++ EtcdNode.mk ak av ad (nn1 ++ nn2) :: as2)).Nodes =
        as1 ++ EtcdNode.mk ak av ad (nn1 ++ nn2) :: as2 from rfl, hnp]

/-- Claim C7 witness: `C7_unknown_names_ignored` at concrete subtrees — an
unknown top-level category `gpu`, an unknown processor property `vendor`,
an unknown memory property `kind`, and an unknown adapter property `mtu`
each leave the decode unchanged. -/
theorem C7_witness :
    loadHardwareConfig gdiK "a" emptyNodeConfig
        (some { Node := some (EtcdNode.mk "a" "" true
          ([] ++ EtcdNode.mk "gpu" "" false [] ::
            [EtcdNode.mk "cpu" "" true []])) }) =
      loadHardwareConfig gdiK "a" emptyNodeConfig
        (some { Node := some (EtcdNode.mk "a" "" true
          ([] ++ [EtcdNode.mk "cpu" "" true []])) })
    ∧ loadProcessorsConfig emptyNodeConfig
        (EtcdNode.mk "cpu" "" true
          ([] ++ EtcdNode.mk "0" "" true
            ([] ++ EtcdNode.mk "vendor" "intel" false [] ::
              [EtcdNode.mk "bits" "64" false []]) :: [])) =
      loadProcessorsConfig emptyNodeConfig
        (EtcdNode.mk "cpu" "" true
          ([] ++ EtcdNode.mk "0" "" true
            ([] ++ [EtcdNode.mk "bits" "64" false []]) :: []))
    ∧ loadMemoryConfig emptyNodeConfig
        (EtcdNode.mk "mem" "" true
          ([] ++ EtcdNode.mk "kind" "ddr4" false [] ::
            [EtcdNode.mk "totalsize" "1024" false []])) =
      loadMemoryConfig emptyNodeConfig
        (EtcdNode.mk "mem" "" true
          ([] ++ [EtcdNode.mk "totalsize" "1024" false []]))
    ∧ loadNetworkConfig emptyNodeConfig
        (EtcdNode.mk "net" "" true
          ([] ++ EtcdNode.mk "eth0" "" true
            ([EtcdNode.mk "ipv4address" "1.1.1.1" false []] ++
              EtcdNode.mk "mtu" "1500" false [] :: []) :: [])) =
      loadNetworkConfig emptyNodeConfig
        (EtcdNode.mk "net" "" true
          ([] ++ EtcdNode.mk "eth0" "" true
            ([EtcdNode.mk "ipv4address" "1.1.1.1" false []] ++ []) :: [])) :=
  C7_unknown_names_ignored gdiK "a" emptyNodeConfig
    (EtcdNode.mk "gpu" "" false []) [] [EtcdNode.mk "cpu" "" true []] "a" "" true
    (by decide) (by decide) (by decide) (by decide) (by decide)
    (EtcdNode.mk "vendor" "intel" false []) "cpu" "" "0" "" true true
    [] [] [] [EtcdNode.mk "bits" "64" false []]
    (by decide) (by decide) (by decide) (by decide) (by decide) (by decide)
    (EtcdNode.mk "kind" "ddr4" false []) "mem" "" true
    [] [EtcdNode.mk "totalsize" "1024" false []]
    (by decide)
    (EtcdNode.mk "mtu" "1500" false []) "net" "" "eth0" "" true true
    [] [] [EtcdNode.mk "ipv4address" "1.1.1.1" false []] []
    (by decide) (by decide) (by decide)

/-- Claim C8: after a successful decode started from the zero config, each
of the `Disks`, `Processors` and `NetworkAdapters` sequences has length
exactly the child count of the (last) corresponding category subtree,
position `i` being the decode of the `i`-th child in store order, and is
empty when the category is absent. -/
theorem C8_sequences_positional (gdi : DiskDecoder) (nodeId : String)
    (root : EtcdNode) (r : NodeConfig)
    (h : loadHardwareConfig gdi nodeId emptyNodeConfig
      (some { Node := some root }) = .ok r) :
    ((∀ d, lastCat DisksKey root.Nodes = some d →
        r.Disks.length = d.Nodes.length ∧
          ∀ (i : Nat) (h1 : i < d.Nodes.length) (h2 : i < r.Disks.length),
            gdi (d.Nodes.get ⟨i, h1⟩) = .ok (r.Disks.get ⟨i, h2⟩))
      ∧ (lastCat DisksKey root.Nodes = none → r.Disks = []))
    ∧ ((∀ d, lastCat ProcessorsKey root.Nodes = some d →
        r.Processors.length = d.Nodes.length ∧
          ∀ (i : Nat) (h1 : i < d.Nodes.length) (h2 : i < r.Processors.length),
            parseProcChild (d.Nodes.get ⟨i, h1⟩) = .ok (r.Processors.get ⟨i, h2⟩))
      ∧ (lastCat ProcessorsKey root.Nodes = none → r.Processors = []))
    ∧ ((∀ d, lastCat NetworkKey root.Nodes = some d →
        r.NetworkAdapters.length = d.Nodes.length ∧
          ∀ (i : Nat) (h1 : i < d.Nodes.length) (h2 : i < r.NetworkAdapters.length),
            parseNetChild (d.Nodes.get ⟨i, h1⟩) = .ok (r.NetworkAdapters.get ⟨i, h2⟩))
      ∧ (lastCat NetworkKey root.Nodes = none → r.NetworkAdapters = [])) := by
  have h0 : loadCategories gdi nodeId emptyNodeConfig root.Nodes = .ok r := h
  refine ⟨⟨?_, ?_⟩, ⟨?_, ?_⟩, ⟨?_, ?_⟩⟩
  · intro d hdl
    obtain ⟨ds, hp, hds⟩ :=
      (loadCategories_disks gdi nodeId root.Nodes emptyNodeConfig r h0).1 d hdl
    subst hds
    obtain ⟨hlen, hget⟩ := parseDisks_spec gdi d.Nodes _ hp
    exact ⟨hlen, hget⟩
  · intro hnone
    exact (loadCategories_disks gdi nodeId root.Nodes emptyNodeConfig r h0).2 hnone
  · intro d hdl
    obtain ⟨ps, hp, hps⟩ :=
      (loadCategories_procs gdi nodeId root.Nodes emptyNodeConfig r h0).1 d hdl
    subst hps
    obtain ⟨hlen, hget⟩ := parseProcessors_spec d.Nodes _ hp
    exact ⟨hlen, hget⟩
  · intro hnone
    exact (loadCategories_procs gdi nodeId root.Nodes emptyNodeConfig r h0).2 hnone
  · intro d hdl
    obtain ⟨ns, hp, hns⟩ :=
      (loadCategories_nets gdi nodeId root.Nodes emptyNodeConfig r h0).1 d hdl
    subst hns
    obtain ⟨hlen, hget⟩ := parseNetwork_spec d.Nodes _ hp
    exact ⟨hlen, hget⟩
  · intro hnone
    exact (loadCategories_nets gdi nodeId root.Nodes emptyNodeConfig r h0).2 hnone

/-- Claim C8 witness: `C8_sequences_positional` at the concrete three-
category subtree — the sequence lengths equal the child counts (2, 1, 1,
and the absent-category case gives the empty memoryless default via the
disks of a category-free root), with a sample positional entry. -/
theorem C8_witness :
    rSeqK.Disks.length = disksChildK.Nodes.length
    ∧ rSeqK.Processors.length = cpuChildK.Nodes.length
    ∧ rSeqK.NetworkAdapters.length = netChildK.Nodes.length
    ∧ gdiK (disksChildK.Nodes.get ⟨0, by decide⟩) =
        .ok (rSeqK.Disks.get ⟨0, by decide⟩)
    ∧ emptyNodeConfig.Disks = [] := by
  have h := C8_sequences_positional gdiK "a" rootSeqK rSeqK rfl
  refine ⟨(h.1.1 disksChildK rfl).1, (h.2.1.1 cpuChildK rfl).1,
    (h.2.2.1 netChildK rfl).1, (h.1.1 disksChildK rfl).2 0 (by decide) (by decide), ?_⟩
  have h2 := C8_sequences_positional gdiK "a"
    (EtcdNode.mk "a" "" true []) emptyNodeConfig rfl
  exact h2.1.2 rfl

end Inventory
